import Mathlib

/-!
Shallow embedding of the connectome construction engine of src/scaffold/connectivity.py.

Conventions used throughout:
* a cell row of a population array is a record of five rationals, mirroring the
  numpy rows (id, type, x, y, z); all numpy floats are modelled as rationals;
* np.random.permutation is modelled by an explicit shuffle parameter; theorems
  quantify over all shuffles that are permutations, so they hold for every
  outcome of the random draws;
* np.random.random and np.random.uniform draws are modelled by an explicit
  oracle of rationals, indexed by loop counter and candidate position; theorems
  that need it assume the draws lie in [0, 1), as the numpy generators guarantee;
* a comparison of the source of the shape ra > sqrt(d)/r is modelled without
  square roots by the exactly equivalent rational test (see gtSqrtDiv below);
* operations that can raise in Python/numpy (indexing an empty array, sampling
  without replacement beyond the population, out-of-range fancy indexing) are
  modelled in the Except monad.
-/

/-- One row of a population array: (id, type, x, y, z), as in
scaffold.cells_by_type arrays. All entries are numpy floats, modelled as ℚ. -/
structure Cell where
  id : ℚ
  ctype : ℚ
  x : ℚ
  y : ℚ
  z : ℚ
deriving DecidableEq

/-- Default row used for in-range list lookups (never actually selected). -/
def dflt : Cell := ⟨0, 0, 0, 0, 0⟩

/-- A directed edge of the connectome: (from value, to value) as written into the
two columns of the result matrices. -/
abbrev Edge := ℚ × ℚ

/-- Python int() applied to a float: truncation toward zero. -/
def pyInt (q : ℚ) : ℤ := Int.tdiv q.num q.den

/-- The row written by the out-of-bounds sentinel assignments
(new_array[i, :] = oob): every column of the row becomes the oob value. -/
def oobCell (oob : ℚ) : Cell := ⟨oob, oob, oob, oob, oob⟩

/-- A numpy row index computed from a float: int() truncation, with a negative
index counting from the end of the array. -/
def pyWrapIdx (q : ℚ) (len : ℕ) : ℕ :=
  let j := pyInt q
  if j < 0 then (j + (len : ℤ)).toNat else j.toNat

/-- Models the source test ra > sqrt(d) / r for d ≥ 0 (d is always a sum of
squares). For r > 0 this is equivalent to 0 ≤ ra and d < (ra * r)^2; for r < 0
the right-hand side is ≤ 0 and the test is ra * r < 0 or (ra * r)^2 < d after
multiplying through; for r = 0 the float division yields inf or nan and the
comparison is false. -/
def gtSqrtDiv (ra d r : ℚ) : Bool :=
  if 0 < r then decide (0 ≤ ra ∧ d < (ra * r) ^ 2)
  else if r < 0 then decide (ra * r < 0 ∨ (ra * r) ^ 2 < d)
  else false

/-- Models comparing two sort keys sqrt(d1)/r and sqrt(d2)/r (as produced by
argsort over normalized distances): for r ≥ 0 the order agrees with the order
of d1 and d2, for r < 0 it is reversed. -/
def leSqrtDiv (d1 d2 r : ℚ) : Bool :=
  if 0 ≤ r then decide (d1 ≤ d2) else decide (d2 ≤ d1)

/-- Models the source test ra > |v| / d. For d = 0 the float division yields
inf or nan and the comparison is false. -/
def gtAbsDiv (ra v d : ℚ) : Bool :=
  if d = 0 then false else decide (|v| / d < ra)

/-- Models the source test sqrt(a) < d for a ≥ 0: equivalent to 0 ≤ d and
a < d^2. -/
def ltSqrt (a d : ℚ) : Bool :=
  decide (0 ≤ d ∧ a < d ^ 2)

/-- Models np.random.choice(pop, k, replace=False): k elements drawn without
replacement, i.e. the first k entries of a permutation of pop; raises ValueError
when k exceeds the population size. -/
def npChoice {α : Type} (shuffle : List α → List α) (pop : List α) (k : ℕ) :
    Except String (List α) :=
  if k ≤ pop.length then .ok ((shuffle pop).take k)
  else .error "ValueError: cannot take a larger sample than population when replace is False"

/-- Models np.delete(l, idxs, 0): removes the rows at the given indices
(negative indices count from the end); raises IndexError when an index is out
of bounds. -/
def npDelete (l : List Cell) (idxs : List ℤ) : Except String (List Cell) :=
  if idxs.all (fun j => decide (-(l.length : ℤ) ≤ j) && decide (j < (l.length : ℤ))) then
    .ok (((List.range l.length).filter (fun (i : ℕ) =>
      !(decide ((i : ℤ) ∈ idxs) || decide ((i : ℤ) - (l.length : ℤ) ∈ idxs)))).map
        (fun (i : ℕ) => l.getD i dflt))
  else .error "IndexError: index out of bounds in np.delete"

/-- Models the fancy-index assignment l[idxs, :] = v (negative indices count
from the end); raises IndexError when an index is out of bounds. -/
def npSetRows (l : List Cell) (idxs : List ℤ) (v : Cell) : Except String (List Cell) :=
  if idxs.all (fun j => decide (-(l.length : ℤ) ≤ j) && decide (j < (l.length : ℤ))) then
    .ok (idxs.foldl (fun acc j =>
      acc.set (if j < 0 then (j + (acc.length : ℤ)).toNat else j.toNat) v) l)
  else .error "IndexError: index out of bounds in fancy-index assignment"

/-! ### A reference heap, to state frame properties about array mutation

Population arrays live at references; np.copy allocates a fresh reference with
the same contents; every element assignment of the source is a write to the
reference holding the assigned array. -/

/-- A heap of numpy arrays: a map from references to arrays plus the next fresh
reference. -/
structure Heap where
  mem : ℕ → List Cell
  next : ℕ

/-- Reading an array from the heap. -/
def Heap.read (h : Heap) (r : ℕ) : List Cell := h.mem r

/-- Writing an array at an existing reference. -/
def Heap.write (h : Heap) (r : ℕ) (v : List Cell) : Heap :=
  ⟨fun s => if s = r then v else h.mem s, h.next⟩

/-- Allocating a fresh array (np.copy): returns the extended heap and the fresh
reference. -/
def Heap.alloc (h : Heap) (v : List Cell) : Heap × ℕ :=
  (⟨fun s => if s = h.next then v else h.mem s, h.next + 1⟩, h.next)

/-! ### ConnectomeGlomerulusGranule (connectivity.py lines 46-99) -/

/-- Entry i of distance_vector of connectome_glom_grc (line 75): squared
distance of glomerulus i to the granule minus dendrite_length squared. -/
def glomGrcDist (glomeruli : List Cell) (gran : Cell) (dendLen : ℚ) (i : ℕ) : ℚ :=
  let gl := glomeruli.getD i dflt
  (gl.x - gran.x) ^ 2 + (gl.y - gran.y) ^ 2 + (gl.z - gran.z) ^ 2 - dendLen ^ 2

/-- good_gloms (line 76): indices of the glomeruli whose distance_vector entry
is strictly negative. -/
def glomGrcGood (glomeruli : List Cell) (gran : Cell) (dendLen : ℚ) : List ℕ :=
  (List.range glomeruli.length).filter (fun i =>
    decide (glomGrcDist glomeruli gran dendLen i < 0))

/-- connected_gloms for one granule (lines 78-87): when more than n_conn_glom
candidates exist, the n_conn_glom closest ones (good_gloms sorted by
distance_vector); otherwise all candidates. -/
def glomGrcSelected (glomeruli : List Cell) (gran : Cell) (dendLen : ℚ)
    (nConnGlom : ℕ) : List ℕ :=
  let good := glomGrcGood glomeruli gran dendLen
  if nConnGlom < good.length then
    (((good.map (fun i => (i, glomGrcDist glomeruli gran dendLen i))).mergeSort
      (fun a b => decide (a.2 ≤ b.2))).map Prod.fst).take nConnGlom
  else good

/-- Legacy code block connectome_glom_grc (lines 63-95): one block of edges
(local index + first_glomerulus, gran_id) per granule. -/
def connectome_glom_grc (firstGlomerulus : ℚ) (glomeruli granules : List Cell)
    (dendLen : ℚ) (nConnGlom : ℕ) : List Edge :=
  granules.flatMap (fun gran =>
    (glomGrcSelected glomeruli gran dendLen nConnGlom).map
      (fun i => ((i : ℚ) + firstGlomerulus, gran.id)))

/-- ConnectomeGlomerulusGranule.connect (lines 53-99): reads
first_glomerulus = int(glomeruli[0,0]) before running the legacy block, which
raises IndexError when the glomerulus population is empty. -/
def glomerulusGranuleConnect (glomeruli granules : List Cell) (dendLen : ℚ)
    (nConnGlom : ℕ) : Except String (List Edge) :=
  match glomeruli with
  | [] => .error "IndexError: index 0 is out of bounds for axis 0 with size 0"
  | g0 :: _ =>
    .ok (connectome_glom_grc ((pyInt g0.id : ℤ) : ℚ) glomeruli granules dendLen nConnGlom)

/-! ### ConnectomeGlomDCN (connectivity.py lines 757-789) -/

/-- The loop of connectome_glom_dcn (lines 776-784): for each DCN cell, draw
conv_dcn glomerulus ids without replacement and emit (int(chosen id), dcn id)
edges. -/
def glomDcnLoop (shuffle : ℕ → List ℚ → List ℚ) (glomIds : List ℚ) (convDcn : ℕ) :
    List Cell → ℕ → List Edge → Except String (List Edge)
  | [], _, acc => .ok acc
  | d :: rest, k, acc =>
    match npChoice (shuffle k) glomIds convDcn with
    | .error e => .error e
    | .ok connectedGloms =>
      glomDcnLoop shuffle glomIds convDcn rest (k + 1)
        (acc ++ connectedGloms.map (fun cid => (((pyInt cid : ℤ) : ℚ), d.id)))

/-- Legacy code block connectome_glom_dcn (lines 774-786). The first_glomerulus
argument is accepted but unused, as in the source. -/
def connectome_glom_dcn (firstGlomerulus : ℚ) (glomeruli dcnGlut : List Cell)
    (convDcn : ℕ) (shuffle : ℕ → List ℚ → List ℚ) : Except String (List Edge) :=
  glomDcnLoop shuffle (glomeruli.map Cell.id) convDcn dcnGlut 0 []

/-! ### ConnectomeGapJunctions (connectivity.py lines 574-631) -/

/-- constraint_vector of gap_junctions (line 611): same-type cell j is a
candidate for cell c iff |z_j - z_c| < d_z, |z_j - z_c| ≠ 0 and
sqrt((x_j - x_c)^2 + (y_j - y_c)^2) < d_xy. -/
def gapJunctionGate (dXY dZ : ℚ) (c j : Cell) : Bool :=
  decide (|j.z - c.z| < dZ) && !decide (|j.z - c.z| = 0) &&
    ltSqrt ((j.x - c.x) ^ 2 + (j.y - c.y) ^ 2) dXY

/-- The candidate walk of gap_junctions (lines 616-626): accept while
idx ≤ dc_gj and both rejection tests pass. -/
def gapJunctionsWalk (dXY dZ : ℚ) (dcGj : ℕ) (c : Cell) (roll : ℕ → ℚ) :
    List Cell → ℕ → ℕ → List Edge → List Edge
  | [], _, _, acc => acc
  | j :: rest, pos, idx, acc =>
    if idx ≤ dcGj then
      if gtAbsDiv (roll pos) (j.z - c.z) dZ &&
          gtSqrtDiv (roll pos) ((j.x - c.x) ^ 2 + (j.y - c.y) ^ 2) dXY then
        gapJunctionsWalk dXY dZ dcGj c roll rest (pos + 1) (idx + 1) (acc ++ [(c.id, j.id)])
      else gapJunctionsWalk dXY dZ dcGj c roll rest (pos + 1) idx acc
    else gapJunctionsWalk dXY dZ dcGj c roll rest (pos + 1) idx acc

/-- The outer loop of gap_junctions (lines 606-626). -/
def gapJunctionsLoop (cells : List Cell) (dXY dZ : ℚ) (dcGj : ℕ)
    (shuffle : ℕ → List ℕ → List ℕ) (rolls : ℕ → ℕ → ℚ) :
    List Cell → ℕ → List Edge → List Edge
  | [], _, acc => acc
  | c :: rest, k, acc =>
    let good := (List.range cells.length).filter (fun i =>
      gapJunctionGate dXY dZ c (cells.getD i dflt))
    let candidates := (shuffle k good).map (fun i => cells.getD i dflt)
    gapJunctionsLoop cells dXY dZ dcGj shuffle rolls rest (k + 1)
      (gapJunctionsWalk dXY dZ dcGj c (rolls k) candidates 0 1 acc)

/-- Legacy code block gap_junctions (lines 599-628). -/
def gap_junctions (cells : List Cell) (dXY dZ : ℚ) (dcGj : ℕ)
    (shuffle : ℕ → List ℕ → List ℕ) (rolls : ℕ → ℕ → ℚ) : List Edge :=
  gapJunctionsLoop cells dXY dZ dcGj shuffle rolls cells 0 []

/-- ConnectomeGapJunctions.connect (lines 590-631): reads
first_cell = int(from_cells[0,0]) before running the legacy block, which raises
IndexError when the from population is empty. -/
def gapJunctionsConnect (fromCells : List Cell) (limitXY limitZ : ℚ)
    (divergence : ℕ) (shuffle : ℕ → List ℕ → List ℕ) (rolls : ℕ → ℕ → ℚ) :
    Except String (List Edge) :=
  match fromCells with
  | [] => .error "IndexError: index 0 is out of bounds for axis 0 with size 0"
  | _ :: _ => .ok (gap_junctions fromCells limitXY limitZ divergence shuffle rolls)

/-! ### ConnectomeGapJunctionsGolgi (connectivity.py lines 633-676) -/

/-- The geometric gate of connectome_gj_goc (lines 660-663): golgi j is a
candidate for golgi i iff each coordinate difference is at most
r_goc_vol + (axon extent)/2 in absolute value. -/
def gjGocGate (rGocVol axonX axonY axonZ : ℚ) (i j : Cell) : Bool :=
  decide (|j.x - i.x| ≤ rGocVol + axonX / 2) &&
    decide (|j.y - i.y| ≤ rGocVol + axonY / 2) &&
    decide (|j.z - i.z| ≤ rGocVol + axonZ / 2)

/-- Legacy code block connectome_gj_goc (lines 651-673). The first_golgi
argument is accepted but never used, exactly as in the source: line 669 writes
the raw local index good_goc into the to column without translating it. With an
empty golgi population the final line would reference the unbound end_index
(NameError). bool_vector[self_index] = False (line 661) excludes the cell
itself by index. -/
def connectome_gj_goc (rGocVol axonX axonY axonZ : ℚ) (golgicells : List Cell)
    (firstGolgi : ℚ) : Except String (List Edge) :=
  match golgicells with
  | [] => .error "NameError: name end_index is not defined"
  | _ :: _ =>
    .ok ((List.range golgicells.length).flatMap (fun s =>
      let i := golgicells.getD s dflt
      let good := (List.range golgicells.length).filter (fun j =>
        !decide (j = s) && gjGocGate rGocVol axonX axonY axonZ i (golgicells.getD j dflt))
      good.map (fun j => (i.id, (j : ℚ)))))

/-! ### ConnectomeGolgiGranule (connectivity.py lines 313-352) -/

/-- Legacy code block connectome_goc_grc (lines 328-348): for each golgi id,
collect the glomeruli it connects to under the golgi_to_glomerulus tag, then
emit one (golgi id, granule id) edge for each glomerulus_to_granule edge whose
glomerulus is among them. -/
def connectome_goc_grc (golgis : List Cell) (glomGrc gocGlom : List Edge) : List Edge :=
  (golgis.map Cell.id).flatMap (fun golgiId =>
    let connectedGlomeruli := (gocGlom.filter (fun s => decide (s.1 = golgiId))).map Prod.snd
    let connectedGranulesViaGloms :=
      (glomGrc.filter (fun r => decide (r.1 ∈ connectedGlomeruli))).map Prod.snd
    connectedGranulesViaGloms.map (fun gr => (golgiId, gr)))

/-! ### ConnectomeGolgiGlomerulus (connectivity.py lines 141-208) -/

/-- The geometric gate of connectome_goc_glom (lines 176-180): the glomerulus
sphere of radius r_glom meets the golgi axon box. It reads the coordinate
columns of the ORIGINAL glomerulus array (glom_x, glom_y, glom_z are views of
the glomeruli argument, lines 164-166), never the working copy. -/
def gocGlomGate (rGlom axonX axonY axonZ : ℚ) (golgi gl : Cell) : Bool :=
  decide (golgi.x - axonX / 2 ≤ gl.x + rGlom) && decide (gl.x - rGlom ≤ golgi.x + axonX / 2) &&
    decide (golgi.y - axonY / 2 ≤ gl.y + rGlom) && decide (gl.y - rGlom ≤ golgi.y + axonY / 2) &&
    decide (golgi.z - axonZ / 2 ≤ gl.z + rGlom) && decide (gl.z - rGlom ≤ golgi.z + axonZ / 2)

/-- The candidate walk of connectome_goc_glom (lines 194-204): walk the
distance-sorted snapshot of working-copy rows; accept while idx ≤ n_conn_goc
and ra > sqrt((x - golgi_x)^2 + (y - golgi_y)^2)/layer_thickness fails to
reject; on acceptance emit (golgi_id, row id + first_glomerulus) and overwrite
row int(row id - first_glomerulus) of the working copy with the oob sentinel
(a negative index would wrap around, as in numpy). -/
def gocGlomWalk (firstGlomerulus layerThickness oob : ℚ) (nConnGoc : ℕ)
    (golgiId gx gy : ℚ) (roll : ℕ → ℚ) :
    List Cell → ℕ → ℕ → List Cell → List Edge → List Cell × List Edge
  | [], _, _, gloms, conns => (gloms, conns)
  | c :: rest, pos, idx, gloms, conns =>
    if idx ≤ nConnGoc then
      if gtSqrtDiv (roll pos) ((c.x - gx) ^ 2 + (c.y - gy) ^ 2) layerThickness then
        gocGlomWalk firstGlomerulus layerThickness oob nConnGoc golgiId gx gy roll rest
          (pos + 1) (idx + 1)
          (gloms.set (pyWrapIdx (c.id - firstGlomerulus) gloms.length) (oobCell oob))
          (conns ++ [(golgiId, c.id + firstGlomerulus)])
      else
        gocGlomWalk firstGlomerulus layerThickness oob nConnGoc golgiId gx gy roll rest
          (pos + 1) idx gloms conns
    else
      gocGlomWalk firstGlomerulus layerThickness oob nConnGoc golgiId gx gy roll rest
        (pos + 1) idx gloms conns

/-- One golgi iteration of connectome_goc_glom (lines 173-204): gate against the
original coordinates, permute the candidates, snapshot the working-copy rows,
sort the snapshot by normalized xy distance to the golgi, then walk. -/
def gocGlomStep (rGlom axonX axonY axonZ layerThickness oob firstGlomerulus : ℚ)
    (nConnGoc : ℕ) (glomeruli : List Cell) (shuffleIdx : ℕ → List ℕ → List ℕ)
    (rolls : ℕ → ℕ → ℚ) (k : ℕ) (golgi : Cell) (gloms : List Cell)
    (conns : List Edge) : List Cell × List Edge :=
  let good := (List.range glomeruli.length).filter (fun i =>
    gocGlomGate rGlom axonX axonY axonZ golgi (glomeruli.getD i dflt))
  let chosenRand := shuffleIdx k good
  let goodGlomsMatrix := chosenRand.map (fun i => gloms.getD i dflt)
  let sorted := goodGlomsMatrix.mergeSort (fun a b =>
    leSqrtDiv ((a.x - golgi.x) ^ 2 + (a.y - golgi.y) ^ 2)
      ((b.x - golgi.x) ^ 2 + (b.y - golgi.y) ^ 2) layerThickness)
  gocGlomWalk firstGlomerulus layerThickness oob nConnGoc golgi.id golgi.x golgi.y
    (rolls k) sorted 0 1 gloms conns

/-- The golgi loop of connectome_goc_glom. -/
def gocGlomLoop (rGlom axonX axonY axonZ layerThickness oob firstGlomerulus : ℚ)
    (nConnGoc : ℕ) (glomeruli : List Cell) (shuffleIdx : ℕ → List ℕ → List ℕ)
    (rolls : ℕ → ℕ → ℚ) :
    List Cell → ℕ → List Cell → List Edge → List Cell × List Edge
  | [], _, gloms, conns => (gloms, conns)
  | g :: rest, k, gloms, conns =>
    let s := gocGlomStep rGlom axonX axonY axonZ layerThickness oob firstGlomerulus
      nConnGoc glomeruli shuffleIdx rolls k g gloms conns
    gocGlomLoop rGlom axonX axonY axonZ layerThickness oob firstGlomerulus nConnGoc
      glomeruli shuffleIdx rolls rest (k + 1) s.1 s.2

/-- Legacy code block connectome_goc_glom (lines 163-205): the working copy
new_glomeruli starts as np.copy(glomeruli), the golgi order is a random
permutation. -/
def connectome_goc_glom (firstGlomerulus : ℚ) (glomeruli golgicells : List Cell)
    (axonX axonY axonZ rGlom : ℚ) (nConnGoc : ℕ) (layerThickness oob : ℚ)
    (shuffleGolgi : List Cell → List Cell) (shuffleIdx : ℕ → List ℕ → List ℕ)
    (rolls : ℕ → ℕ → ℚ) : List Edge :=
  (gocGlomLoop rGlom axonX axonY axonZ layerThickness oob firstGlomerulus nConnGoc
    glomeruli shuffleIdx rolls (shuffleGolgi golgicells) 0 glomeruli []).2

/-- The golgi loop of connectome_goc_glom over the heap: each iteration reads
the working copy at newRef and writes the updated working copy back to newRef. -/
def gocGlomHeapLoop (rGlom axonX axonY axonZ layerThickness oob firstGlomerulus : ℚ)
    (nConnGoc : ℕ) (glomeruli : List Cell) (shuffleIdx : ℕ → List ℕ → List ℕ)
    (rolls : ℕ → ℕ → ℚ) (newRef : ℕ) :
    List Cell → ℕ → Heap → List Edge → Heap × List Edge
  | [], _, h, conns => (h, conns)
  | g :: rest, k, h, conns =>
    let s := gocGlomStep rGlom axonX axonY axonZ layerThickness oob firstGlomerulus
      nConnGoc glomeruli shuffleIdx rolls k g (h.read newRef) conns
    gocGlomHeapLoop rGlom axonX axonY axonZ layerThickness oob firstGlomerulus nConnGoc
      glomeruli shuffleIdx rolls newRef rest (k + 1) (h.write newRef s.1) s.2

/-- connectome_goc_glom with the array mutation made explicit on the heap: the
glomerulus population lives at glomRef; line 167 (new_glomeruli =
np.copy(glomeruli)) allocates a fresh reference, and every sentinel overwrite
(line 202) is a write to that fresh reference. -/
def connectome_goc_glom_heap (firstGlomerulus : ℚ) (glomRef : ℕ)
    (golgicells : List Cell) (axonX axonY axonZ rGlom : ℚ) (nConnGoc : ℕ)
    (layerThickness oob : ℚ) (shuffleGolgi : List Cell → List Cell)
    (shuffleIdx : ℕ → List ℕ → List ℕ) (rolls : ℕ → ℕ → ℚ) (h : Heap) :
    Heap × List Edge :=
  let glomeruli := h.read glomRef
  let a := h.alloc (h.read glomRef)
  gocGlomHeapLoop rGlom axonX axonY axonZ layerThickness oob firstGlomerulus nConnGoc
    glomeruli shuffleIdx rolls a.2 (shuffleGolgi golgicells) 0 a.1 []

/-! ### ConnectomeGranuleGolgi (connectivity.py lines 210-311) -/

/-- The ascending-axon walk of connectome_grc_goc (lines 266-273): walk the
sorted candidate pairs (working-copy row, squared xz distance); while fewer
than n_connAA ids are collected, accept a candidate iff
rolls[ind] > sqrt(distance)/r_goc_vol, collecting its id column. -/
def grcGocAAWalk (rGocVol : ℚ) (nConnAA : ℕ) (roll : ℕ → ℚ) :
    List (Cell × ℚ) → ℕ → List ℚ → List ℚ
  | [], _, acc => acc
  | cd :: rest, pos, acc =>
    if acc.length < nConnAA then
      if gtSqrtDiv (roll pos) cd.2 rGocVol then
        grcGocAAWalk rGocVol nConnAA roll rest (pos + 1) (acc ++ [cd.1.id])
      else grcGocAAWalk rGocVol nConnAA roll rest (pos + 1) acc
    else grcGocAAWalk rGocVol nConnAA roll rest (pos + 1) acc

/-- The connectedAA collection of one golgi iteration of connectome_grc_goc
(lines 256-274): gate the CURRENT working copy on squared xz distance, permute,
sort the candidate pairs by normalized distance, then walk collecting ids. -/
def grcGocAACollect (rGocVol : ℚ) (nConnAA : ℕ)
    (shuffleAA : ℕ → List ℕ → List ℕ) (rolls : ℕ → ℕ → ℚ) (k : ℕ)
    (golgi : Cell) (ng : List Cell) : List ℚ :=
  let dist := fun i =>
    let c := ng.getD i dflt
    (c.x - golgi.x) ^ 2 + (c.z - golgi.z) ^ 2
  let aaCandidates := (List.range ng.length).filter (fun i => decide (dist i ≤ rGocVol ^ 2))
  let chosenRand := shuffleAA k aaCandidates
  let selected := chosenRand.map (fun i => (ng.getD i dflt, dist i))
  let sorted := selected.mergeSort (fun a b => leSqrtDiv a.2 b.2 rGocVol)
  grcGocAAWalk rGocVol nConnAA (rolls k) sorted 0 []

/-- One golgi iteration of connectome_grc_goc (lines 255-303). The ascending
axon gate reads the CURRENT working copy (granules_x and granules_z, lines
250-251, are views of new_granules, which line 303 updates in place); the
parallel-fiber pool is np.delete applied to the ORIGINAL granule array. -/
def grcGocStep (firstGranule rGocVol oobValue : ℚ) (nConnAA totConn : ℕ)
    (shuffleAA shufflePF : ℕ → List ℕ → List ℕ) (rolls : ℕ → ℕ → ℚ) (k : ℕ)
    (golgi : Cell) (granules ng : List Cell) (aa pf : List Edge) :
    Except String (List Cell × List Edge × List Edge) :=
  let connectedAA := grcGocAACollect rGocVol nConnAA shuffleAA rolls k golgi ng
  match npDelete granules (connectedAA.map (fun cid => pyInt (cid - firstGranule))) with
  | .error e => .error e
  | .ok goodGrc =>
    let goodPf := (List.range goodGrc.length).filter (fun i =>
      let c := goodGrc.getD i dflt
      decide (golgi.x - rGocVol ≤ c.x) && decide (c.x ≤ golgi.x + rGocVol))
    if totConn < connectedAA.length then
      .error "ValueError: negative number of samples requested"
    else
      match (if goodPf.length < totConn - connectedAA.length then
               npChoice (shufflePF k) goodPf (min (totConn - connectedAA.length) goodPf.length)
             else
               npChoice (shufflePF k) goodPf (totConn - connectedAA.length)) with
      | .error e => .error e
      | .ok connectedPf =>
        let pfIdx := connectedPf.map (fun i => goodGrc.getD i dflt)
        let matrixAA := connectedAA.map (fun cid => (cid, golgi.id))
        let matrixPF := pfIdx.map (fun c => (c.id, golgi.id))
        match npSetRows ng (connectedAA.map (fun cid => pyInt cid - pyInt firstGranule))
            (oobCell oobValue) with
        | .error e => .error e
        | .ok ng2 => .ok (ng2, aa ++ matrixAA, pf ++ matrixPF)

/-- The golgi loop of connectome_grc_goc. -/
def grcGocLoop (firstGranule rGocVol oobValue : ℚ) (nConnAA totConn : ℕ)
    (shuffleAA shufflePF : ℕ → List ℕ → List ℕ) (rolls : ℕ → ℕ → ℚ)
    (granules : List Cell) :
    List Cell → ℕ → List Cell → List Edge → List Edge →
      Except String (List Cell × List Edge × List Edge)
  | [], _, ng, aa, pf => .ok (ng, aa, pf)
  | g :: rest, k, ng, aa, pf =>
    match grcGocStep firstGranule rGocVol oobValue nConnAA totConn shuffleAA shufflePF
        rolls k g granules ng aa pf with
    | .error e => .error e
    | .ok s =>
      grcGocLoop firstGranule rGocVol oobValue nConnAA totConn shuffleAA shufflePF rolls
        granules rest (k + 1) s.1 s.2.1 s.2.2

/-- Legacy code block connectome_grc_goc (lines 245-307): copies the granule
array, permutes the golgi array, raises the supply exception when the number of
granule cells is less than OR EQUAL TO the number of golgi cells (line 253 uses
a non-strict comparison), and finally sorts both edge lists by their second
column. n_conn_pf is accepted but only used through tot_conn, as in the source. -/
def connectome_grc_goc (firstGranule : ℚ) (granules golgicells : List Cell)
    (rGocVol oobValue : ℚ) (nConnAA nConnPf totConn : ℕ)
    (shuffleGolgi : List Cell → List Cell)
    (shuffleAA shufflePF : ℕ → List ℕ → List ℕ) (rolls : ℕ → ℕ → ℚ) :
    Except String (List Edge × List Edge) :=
  let newGranules := granules
  let newGolgicells := shuffleGolgi golgicells
  if newGranules.length ≤ newGolgicells.length then
    .error "The number of granule cells was less than the number of golgi cells. Simulation cannot continue."
  else
    match grcGocLoop firstGranule rGocVol oobValue nConnAA totConn shuffleAA shufflePF
        rolls granules newGolgicells 0 newGranules [] [] with
    | .error e => .error e
    | .ok s =>
      .ok (s.2.1.mergeSort (fun a b => decide (a.2 ≤ b.2)),
        s.2.2.mergeSort (fun a b => decide (a.2 ≤ b.2)))

/-- The golgi loop of connectome_grc_goc over the heap: each iteration reads the
original granule array at granRef and the working copy at newRef, and writes
the updated working copy back to newRef. -/
def grcGocHeapLoop (firstGranule rGocVol oobValue : ℚ) (nConnAA totConn : ℕ)
    (shuffleAA shufflePF : ℕ → List ℕ → List ℕ) (rolls : ℕ → ℕ → ℚ)
    (granRef newRef : ℕ) :
    List Cell → ℕ → Heap → List Edge → List Edge →
      Heap × Except String (List Edge × List Edge)
  | [], _, h, aa, pf => (h, .ok (aa, pf))
  | g :: rest, k, h, aa, pf =>
    match grcGocStep firstGranule rGocVol oobValue nConnAA totConn shuffleAA shufflePF
        rolls k g (h.read granRef) (h.read newRef) aa pf with
    | .error e => (h, .error e)
    | .ok s =>
      grcGocHeapLoop firstGranule rGocVol oobValue nConnAA totConn shuffleAA shufflePF
        rolls granRef newRef rest (k + 1) (h.write newRef s.1) s.2.1 s.2.2

/-- connectome_grc_goc with the array mutation made explicit on the heap: the
granule population lives at granRef; line 249 (new_granules = np.copy(granules))
allocates a fresh reference, and every sentinel overwrite (line 303) is a write
to that fresh reference. -/
def connectome_grc_goc_heap (firstGranule : ℚ) (granRef : ℕ)
    (golgicells : List Cell) (rGocVol oobValue : ℚ) (nConnAA nConnPf totConn : ℕ)
    (shuffleGolgi : List Cell → List Cell)
    (shuffleAA shufflePF : ℕ → List ℕ → List ℕ) (rolls : ℕ → ℕ → ℚ) (h : Heap) :
    Heap × Except String (List Edge × List Edge) :=
  let a := h.alloc (h.read granRef)
  let newGolgicells := shuffleGolgi golgicells
  if (a.1.read a.2).length ≤ newGolgicells.length then
    (a.1, .error "The number of granule cells was less than the number of golgi cells. Simulation cannot continue.")
  else
    match grcGocHeapLoop firstGranule rGocVol oobValue nConnAA totConn shuffleAA
        shufflePF rolls granRef a.2 newGolgicells 0 a.1 [] [] with
    | (h2, .error e) => (h2, .error e)
    | (h2, .ok s) =>
      (h2, .ok (s.1.mergeSort (fun a b => decide (a.2 ≤ b.2)),
        s.2.mergeSort (fun a b => decide (a.2 ≤ b.2))))

/-! ### ConnectomeAscAxonPurkinje (connectivity.py lines 354-398) -/

/-- One purkinje iteration of connectome_aa_pc (lines 378-392): box gate on the
CURRENT working copy, one edge (index + first_granule, purkinje id) per
candidate, then overwrite all candidate rows with the oob sentinel. -/
def aaPcStep (firstGranule xPc zPc oobValue : ℚ) (p : Cell) (ng : List Cell)
    (acc : List Edge) : List Cell × List Edge :=
  let good := (List.range ng.length).filter (fun i =>
    let c := ng.getD i dflt
    decide (p.z - zPc / 2 ≤ c.z) && decide (c.z ≤ p.z + zPc / 2) &&
      decide (p.x - xPc / 2 ≤ c.x) && decide (c.x ≤ p.x + xPc / 2))
  let matrix := good.map (fun i => ((i : ℚ) + firstGranule, p.id))
  (good.foldl (fun l i => l.set i (oobCell oobValue)) ng, acc ++ matrix)

/-- The purkinje loop of connectome_aa_pc. -/
def aaPcLoop (firstGranule xPc zPc oobValue : ℚ) :
    List Cell → List Cell → List Edge → List Cell × List Edge
  | [], ng, acc => (ng, acc)
  | p :: rest, ng, acc =>
    let s := aaPcStep firstGranule xPc zPc oobValue p ng acc
    aaPcLoop firstGranule xPc zPc oobValue rest s.1 s.2

/-- Legacy code block connectome_aa_pc (lines 373-395): the working copy
new_granules starts as np.copy(granules). -/
def connectome_aa_pc (firstGranule : ℚ) (granules purkinjes : List Cell)
    (xPc zPc oobValue : ℚ) : List Edge :=
  (aaPcLoop firstGranule xPc zPc oobValue purkinjes granules []).2

/-- The purkinje loop of connectome_aa_pc over the heap. -/
def aaPcHeapLoop (firstGranule xPc zPc oobValue : ℚ) (newRef : ℕ) :
    List Cell → Heap → List Edge → Heap × List Edge
  | [], h, acc => (h, acc)
  | p :: rest, h, acc =>
    let s := aaPcStep firstGranule xPc zPc oobValue p (h.read newRef) acc
    aaPcHeapLoop firstGranule xPc zPc oobValue newRef rest (h.write newRef s.1) s.2

/-- connectome_aa_pc with the array mutation made explicit on the heap: the
granule population lives at granRef; line 375 (new_granules = np.copy(granules))
allocates a fresh reference, and the sentinel overwrite (line 392) is a write to
that fresh reference. -/
def connectome_aa_pc_heap (firstGranule : ℚ) (granRef : ℕ) (purkinjes : List Cell)
    (xPc zPc oobValue : ℚ) (h : Heap) : Heap × List Edge :=
  let a := h.alloc (h.read granRef)
  aaPcHeapLoop firstGranule xPc zPc oobValue a.2 purkinjes a.1 []

/-! ### TouchDetector (connectivity.py lines 805-866) -/

/-- TouchDetector.intersect_cells (lines 832-851). Line 840 reads
from_cell_type.get_search_radius(), but the method only defines the locals
from_type and to_type; from_cell_type is bound nowhere in the module, so every
call raises NameError before either query branch runs (and the reverse branch
at line 848 would additionally iterate over the integer len(reversed_matches),
a TypeError). -/
def intersect_cells (cellPlane : String) (fromPoints toPoints : List Cell)
    (fromCount toCount : ℕ) : Except String (List (List ℕ)) :=
  .error "NameError: name from_cell_type is not defined"

/-- TouchDetector.intersect_compartments (lines 853-866). Its first statement
(line 854) evaluates len(cell_matches), but cell_matches is bound nowhere in
the module (the method also omits self from its signature), so every call
raises NameError before any candidate pair is examined. -/
def intersect_compartments (candidateMap : List (List ℕ)) :
    Except String (List Edge × List ℕ) :=
  .error "NameError: name cell_matches is not defined"

/-! ### Concrete scenario populations used in the spec -/

/-- The from population of the concrete scenario of spec section 8: ten
entities with ids 0..9 at x = 0..9, y = z = 0. -/
def scenarioGloms : List Cell :=
  [⟨0, 0, 0, 0, 0⟩, ⟨1, 0, 1, 0, 0⟩, ⟨2, 0, 2, 0, 0⟩, ⟨3, 0, 3, 0, 0⟩,
   ⟨4, 0, 4, 0, 0⟩, ⟨5, 0, 5, 0, 0⟩, ⟨6, 0, 6, 0, 0⟩, ⟨7, 0, 7, 0, 0⟩,
   ⟨8, 0, 8, 0, 0⟩, ⟨9, 0, 9, 0, 0⟩]

/-- The to population of the concrete scenario: two entities at x = 0 and
x = 9, y = z = 0. -/
def scenarioGrans : List Cell := [⟨100, 0, 0, 0, 0⟩, ⟨101, 0, 9, 0, 0⟩]

/-- Six golgi cells with ids 5..10 (so first_golgi = 5), all at the origin:
every pair is within every gate distance. -/
def sixGolgis : List Cell :=
  [⟨5, 0, 0, 0, 0⟩, ⟨6, 0, 0, 0, 0⟩, ⟨7, 0, 0, 0, 0⟩,
   ⟨8, 0, 0, 0, 0⟩, ⟨9, 0, 0, 0, 0⟩, ⟨10, 0, 0, 0, 0⟩]

/-- Invariant of the working copy and edge list of connectome_goc_glom: the
working copy has the shape of the original array and each row is either the
original row or the oob sentinel; the to column of the edge list is
duplicate-free; and every edge points at a sentinel-marked row of the working
copy. -/
def GocGlomInv (glomeruli : List Cell) (firstGlomerulus oob : ℚ)
    (gloms : List Cell) (conns : List Edge) : Prop :=
  gloms.length = glomeruli.length ∧
  (∀ i, i < glomeruli.length →
    gloms.getD i dflt = glomeruli.getD i dflt ∨ gloms.getD i dflt = oobCell oob) ∧
  (conns.map Prod.snd).Nodup ∧
  (∀ e ∈ conns, ∃ i, i < glomeruli.length ∧
    e.2 = (glomeruli.getD i dflt).id + firstGlomerulus ∧
    gloms.getD i dflt = oobCell oob)

/-- Precondition on a candidate snapshot walked by connectome_goc_glom: every
snapshot row is the sentinel or some original row; no non-sentinel snapshot row
is already connected; the non-sentinel snapshot rows are pairwise distinct. -/
def GocGlomSnap (glomeruli : List Cell) (firstGlomerulus oob : ℚ)
    (cs : List Cell) (conns : List Edge) : Prop :=
  (∀ c ∈ cs, c = oobCell oob ∨
    ∃ i, i < glomeruli.length ∧ c = glomeruli.getD i dflt) ∧
  (∀ c ∈ cs, c ≠ oobCell oob → ∀ e ∈ conns, e.2 ≠ c.id + firstGlomerulus) ∧
  (cs.filter (fun c => !decide (c = oobCell oob))).Nodup

/-- Invariant of the granule working copy of connectome_grc_goc: the working
copy has the shape of the original array and each row is either the original
row or the oob sentinel. -/
def GrcGocNg (granules : List Cell) (oobValue : ℚ) (ng : List Cell) : Prop :=
  ng.length = granules.length ∧
  ∀ i, i < granules.length →
    ng.getD i dflt = granules.getD i dflt ∨ ng.getD i dflt = oobCell oobValue

/-! ## Theorems -/

/-- C6: TouchDetector.intersect_compartments cannot emit any edge: its first
statement references the undefined name cell_matches, so every call — here a
one-pair candidate map — raises NameError instead of testing compartment
intersections and emitting edges as the spec describes. -/
theorem C6_intersect_compartments_raises :
    intersect_compartments [[0]] =
      Except.error "NameError: name cell_matches is not defined" := rfl

/-- C7: the two branches of TouchDetector.intersect_cells cannot be compared on
the code as written: the radius computation preceding the branch references the
undefined name from_cell_type, so every call — here two one-point populations —
raises NameError before either query plan runs. -/
theorem C7_intersect_cells_raises :
    intersect_cells "xyz" [dflt] [dflt] 1 1 =
      Except.error "NameError: name from_cell_type is not defined" := rfl

/-- C4, counterexample: with an empty from population, both
ConnectomeGlomerulusGranule.connect and ConnectomeGapJunctions.connect raise
IndexError while reading the first cell id (int(array[0, 0]) on an empty
array), instead of returning an empty edge list without error as claimed. -/
theorem C4_counterexample :
    glomerulusGranuleConnect [] [dflt] 2 3 =
      Except.error "IndexError: index 0 is out of bounds for axis 0 with size 0" ∧
    gapJunctionsConnect [] 1 1 4 (fun _ l => l) (fun _ _ => 0) =
      Except.error "IndexError: index 0 is out of bounds for axis 0 with size 0" :=
  ⟨rfl, rfl⟩

/-- C4, amended: the legacy matcher blocks themselves do return an empty edge
list, without error, for an empty from population (for every to population and
every outcome of the draws), but the connect() wrappers first read
int(array[0, 0]) of the empty from array and therefore raise IndexError. -/
theorem C4_empty_from_population :
    (∀ (firstGlomerulus : ℚ) (granules : List Cell) (dendLen : ℚ) (nConnGlom : ℕ),
      connectome_glom_grc firstGlomerulus [] granules dendLen nConnGlom = []) ∧
    (∀ (dXY dZ : ℚ) (dcGj : ℕ) (shuffle : ℕ → List ℕ → List ℕ) (rolls : ℕ → ℕ → ℚ),
      gap_junctions [] dXY dZ dcGj shuffle rolls = []) ∧
    (∀ (granules : List Cell) (dendLen : ℚ) (nConnGlom : ℕ),
      glomerulusGranuleConnect [] granules dendLen nConnGlom =
        Except.error "IndexError: index 0 is out of bounds for axis 0 with size 0") ∧
    (∀ (limitXY limitZ : ℚ) (divergence : ℕ) (shuffle : ℕ → List ℕ → List ℕ)
      (rolls : ℕ → ℕ → ℚ),
      gapJunctionsConnect [] limitXY limitZ divergence shuffle rolls =
        Except.error "IndexError: index 0 is out of bounds for axis 0 with size 0") := by
  refine ⟨fun firstGlomerulus granules dendLen nConnGlom => ?_,
    fun _ _ _ _ _ => rfl, fun _ _ _ => rfl, fun _ _ _ _ _ => rfl⟩
  simp [connectome_glom_grc, glomGrcSelected, glomGrcGood]

/-- C5, counterexample: in the concrete scenario (radius predicate r = 2,
dendrite_length = 2), the candidate gate of connectome_glom_grc is the strict
test squared distance - r^2 < 0, so the from entity at x = 2 is NOT a candidate
of the to entity at x = 0, and the from entity at x = 7 is NOT a candidate of
the to entity at x = 9, contradicting the claimed candidate sets {0,1,2} and
{7,8,9}. -/
theorem C5_counterexample :
    ¬ ((2 : ℕ) ∈ glomGrcGood scenarioGloms ⟨100, 0, 0, 0, 0⟩ 2) ∧
    ¬ ((7 : ℕ) ∈ glomGrcGood scenarioGloms ⟨101, 0, 9, 0, 0⟩ 2) := by
  norm_num [glomGrcGood, glomGrcDist, scenarioGloms, dflt, List.range_succ]

/-- C5, amended: with the strict gate, the candidate set of the to entity at
x = 0 is exactly the from entities at x in {0, 1}, that of the to entity at
x = 9 is exactly those at x in {8, 9}, and the full run (convergence 3)
connects each to entity to precisely its own cluster — no edge crosses between
the clusters. -/
theorem C5_amended :
    glomGrcGood scenarioGloms ⟨100, 0, 0, 0, 0⟩ 2 = [0, 1] ∧
    glomGrcGood scenarioGloms ⟨101, 0, 9, 0, 0⟩ 2 = [8, 9] ∧
    connectome_glom_grc 0 scenarioGloms scenarioGrans 2 3 =
      [(0, 100), (1, 100), (8, 101), (9, 101)] := by
  refine ⟨?_, ?_, ?_⟩ <;>
    norm_num [connectome_glom_grc, glomGrcSelected, glomGrcGood, glomGrcDist,
      scenarioGloms, scenarioGrans, dflt, List.range_succ]

/-- C9: evaluating connectome_gj_goc on six golgi cells with ids 5..10 (so
first_golgi = 5), all mutually within gate range: because line 669 stores the
raw local index in the to column (first_golgi is never added), the output
contains the edge (5, 5) — read in simulation-id space, a self edge —
contradicting the claim for ConnectomeGapJunctionsGolgi. -/
theorem C9_gj_goc_self_edge :
    ((5 : ℚ), (5 : ℚ)) ∈ (connectome_gj_goc 1 1 1 1 sixGolgis 5).toOption.getD [] := by
  norm_num [connectome_gj_goc, gjGocGate, sixGolgis, dflt, List.range_succ,
    Except.toOption]

/-- C1, counterexample: ConnectomeGlomDCN with convergence 2 and a single
glomerulus — fewer candidates than the cap — does not fall back to
min(convergence, available) edges: np.random.choice(..., replace=False) raises
ValueError, for every permutation oracle. -/
theorem C1_counterexample :
    connectome_glom_dcn 0 [⟨0, 0, 0, 0, 0⟩] [⟨1, 0, 0, 0, 0⟩] 2 (fun _ l => l) =
      Except.error
        "ValueError: cannot take a larger sample than population when replace is False" :=
  rfl

/-- C2, counterexample: with one granule cell and one golgi cell the from
population is NOT strictly smaller than the to population, yet
connectome_grc_goc raises the supply exception (line 253 compares with <=, not
<), contradicting the claim that no supply error is raised when the from
population is at least as large as the to population. -/
theorem C2_counterexample :
    connectome_grc_goc 0 [⟨0, 0, 0, 0, 0⟩] [⟨1, 0, 0, 0, 0⟩] 1 1000 1 1 2 id
      (fun _ l => l) (fun _ l => l) (fun _ _ => 0) =
      Except.error
        "The number of granule cells was less than the number of golgi cells. Simulation cannot continue." :=
  rfl

/-- Counting over a flatMap is the sum of the per-block counts. -/
theorem countP_flatMap_sum {α β : Type} (f : α → List β) (p : β → Bool) :
    ∀ l : List α, (l.flatMap f).countP p = (l.map (fun a => (f a).countP p)).sum := by
  intro l
  induction l with
  | nil => rfl
  | cons a l ih => simp [List.flatMap_cons, List.countP_append, ih]

/-- The number of glomeruli selected for one granule is the convergence cap
capped by the number of available candidates. -/
theorem glomGrcSelected_length (glomeruli : List Cell) (g : Cell) (dendLen : ℚ)
    (n : ℕ) :
    (glomGrcSelected glomeruli g dendLen n).length =
      min n (glomGrcGood glomeruli g dendLen).length := by
  unfold glomGrcSelected
  by_cases h : n < (glomGrcGood glomeruli g dendLen).length
  · simp only [h, if_true, List.length_take, List.length_map, List.length_mergeSort]
  · simp only [h, if_false]
    omega

/-- The edge block of one granule counts toward target id tid exactly when the
granule has id tid, and then contributes its selection size. -/
theorem glomGrcBlock_count (firstGlomerulus : ℚ) (glomeruli : List Cell)
    (dendLen : ℚ) (n : ℕ) (gran : Cell) (tid : ℚ) :
    ((glomGrcSelected glomeruli gran dendLen n).map
      (fun i => ((i : ℚ) + firstGlomerulus, gran.id))).countP
        (fun e => decide (e.2 = tid)) =
      if gran.id = tid then (glomGrcSelected glomeruli gran dendLen n).length else 0 := by
  rw [List.countP_map]
  by_cases h : gran.id = tid
  · simp [Function.comp_def, h]
  · simp [Function.comp_def, h]

/-- Per-granule convergence count of connectome_glom_grc: when granule ids are
distinct, a granule g receives exactly min(n_conn_glom, candidates) edges. -/
theorem glomGrc_count (firstGlomerulus : ℚ) (glomeruli : List Cell) (dendLen : ℚ)
    (n : ℕ) (g : Cell) :
    ∀ granules : List Cell, (granules.map Cell.id).Nodup → g ∈ granules →
      (connectome_glom_grc firstGlomerulus glomeruli granules dendLen n).countP
        (fun e => decide (e.2 = g.id)) =
      min n (glomGrcGood glomeruli g dendLen).length := by
  intro granules
  induction granules with
  | nil => intro _ hmem; cases hmem
  | cons a l ih =>
    intro hnd hmem
    have hnd' : (l.map Cell.id).Nodup := (List.nodup_cons.mp hnd).2
    have hnotmem : a.id ∉ l.map Cell.id := (List.nodup_cons.mp hnd).1
    rw [connectome_glom_grc, List.flatMap_cons, List.countP_append]
    rcases List.mem_cons.mp hmem with rfl | hg
    · have htail :
          (l.flatMap (fun gran =>
            (glomGrcSelected glomeruli gran dendLen n).map
              (fun i => ((i : ℚ) + firstGlomerulus, gran.id)))).countP
            (fun e => decide (e.2 = g.id)) = 0 := by
        rw [List.countP_eq_zero]
        intro e he
        obtain ⟨b, hb, hbe⟩ := List.mem_flatMap.mp he
        obtain ⟨i, _, rfl⟩ := List.mem_map.mp hbe
        have : b.id ≠ g.id := fun hc => hnotmem (hc ▸ List.mem_map.mpr ⟨b, hb, rfl⟩)
        simpa using this
      rw [htail, glomGrcBlock_count, if_pos rfl, glomGrcSelected_length]
      omega
    · have hane : a.id ≠ g.id := by
        intro hc
        exact hnotmem (hc ▸ List.mem_map.mpr ⟨g, hg, rfl⟩)
      rw [glomGrcBlock_count, if_neg hane]
      have := ih hnd' hg
      rw [connectome_glom_grc] at this
      omega

/-- When the convergence cap does not exceed the glomerulus count, the DCN loop
succeeds and each DCN cell block contributes conv edges toward its own id. -/
theorem glomDcnLoop_ok (shuffle : ℕ → List ℚ → List ℚ) (ids : List ℚ) (conv : ℕ)
    (hle : conv ≤ ids.length) (hlen : ∀ k, (shuffle k ids).length = ids.length)
    (tid : ℚ) :
    ∀ (dcn : List Cell) (k : ℕ) (acc : List Edge),
      ∃ es, glomDcnLoop shuffle ids conv dcn k acc = .ok es ∧
        es.countP (fun e => decide (e.2 = tid)) =
          acc.countP (fun e => decide (e.2 = tid)) +
          (dcn.map (fun d => if d.id = tid then conv else 0)).sum := by
  intro dcn
  induction dcn with
  | nil => intro k acc; exact ⟨acc, rfl, by simp⟩
  | cons d rest ih =>
    intro k acc
    obtain ⟨es, h1, h2⟩ := ih (k + 1)
      (acc ++ ((shuffle k ids).take conv).map (fun cid => (((pyInt cid : ℤ) : ℚ), d.id)))
    refine ⟨es, ?_, ?_⟩
    · rw [glomDcnLoop]
      simp only [npChoice, hle, if_true]
      exact h1
    · rw [h2, List.countP_append, List.countP_map]
      have hblk : (((shuffle k ids).take conv).countP
          ((fun e => decide (e.2 = tid)) ∘ fun cid => (((pyInt cid : ℤ) : ℚ), d.id))) =
          if d.id = tid then conv else 0 := by
        have hlt : ((shuffle k ids).take conv).length = conv := by
          rw [List.length_take, hlen k]
          omega
        by_cases h : d.id = tid
        · rw [if_pos h, List.countP_eq_length.mpr
            (by intro x _; simp only [Function.comp_apply, decide_eq_true_eq]; exact h)]
          exact hlt
        · rw [if_neg h]
          exact List.countP_eq_zero.mpr
            (by intro x _; simp only [Function.comp_apply, decide_eq_true_eq]; exact h)
      rw [hblk]
      simp only [List.map_cons, List.sum_cons]
      omega

/-- When the convergence cap exceeds the glomerulus count and at least one DCN
cell exists, the DCN loop raises the np.random.choice ValueError. -/
theorem glomDcnLoop_error (shuffle : ℕ → List ℚ → List ℚ) (ids : List ℚ)
    (conv : ℕ) (hgt : ids.length < conv) (d : Cell) (rest : List Cell) (k : ℕ)
    (acc : List Edge) :
    glomDcnLoop shuffle ids conv (d :: rest) k acc =
      .error "ValueError: cannot take a larger sample than population when replace is False" := by
  rw [glomDcnLoop]
  simp [npChoice, Nat.not_le.mpr hgt]

/-- Sum of the per-cell contributions when the target cell occurs exactly once. -/
theorem sum_if_id_eq (conv : ℕ) (d0 : Cell) :
    ∀ dcn : List Cell, (dcn.map Cell.id).Nodup → d0 ∈ dcn →
      (dcn.map (fun d => if d.id = d0.id then conv else 0)).sum = conv := by
  intro dcn
  induction dcn with
  | nil => intro _ hmem; cases hmem
  | cons a l ih =>
    intro hnd hmem
    have hnd' : (l.map Cell.id).Nodup := (List.nodup_cons.mp hnd).2
    have hnotmem : a.id ∉ l.map Cell.id := (List.nodup_cons.mp hnd).1
    simp only [List.map_cons, List.sum_cons]
    rcases List.mem_cons.mp hmem with rfl | hg
    · have htail : (l.map (fun d => if d.id = d0.id then conv else 0)).sum = 0 := by
        rw [List.sum_eq_zero]
        intro x hx
        obtain ⟨b, hb, rfl⟩ := List.mem_map.mp hx
        have : b.id ≠ d0.id := fun hc => hnotmem (hc ▸ List.mem_map.mpr ⟨b, hb, rfl⟩)
        simp [this]
      rw [htail, if_pos rfl]
      omega
    · have hane : a.id ≠ d0.id := fun hc =>
        hnotmem (hc ▸ List.mem_map.mpr ⟨d0, hg, rfl⟩)
      rw [ih hnd' hg, if_neg hane]
      omega

/-- C1, amended: (1) in ConnectomeGlomerulusGranule every to-entity with a
distinct id receives exactly min(convergence, available candidates) edges, never
more and without error; (2) in ConnectomeGlomDCN every to-entity receives
exactly convergence edges when the convergence cap does not exceed the number of
glomeruli (all glomeruli are candidates — there is no geometric predicate);
(3) but when fewer glomeruli than the cap are available, ConnectomeGlomDCN does
NOT fall back to min(c, available): np.random.choice raises ValueError. -/
theorem C1_amended :
    (∀ (firstGlomerulus : ℚ) (glomeruli granules : List Cell) (dendLen : ℚ)
      (n : ℕ) (g : Cell), (granules.map Cell.id).Nodup → g ∈ granules →
      (connectome_glom_grc firstGlomerulus glomeruli granules dendLen n).countP
        (fun e => decide (e.2 = g.id)) =
        min n (glomGrcGood glomeruli g dendLen).length) ∧
    (∀ (firstGlomerulus : ℚ) (glomeruli dcn : List Cell) (conv : ℕ)
      (shuffle : ℕ → List ℚ → List ℚ) (d : Cell),
      (∀ k l, (shuffle k l).Perm l) → conv ≤ glomeruli.length →
      (dcn.map Cell.id).Nodup → d ∈ dcn →
      ∃ es, connectome_glom_dcn firstGlomerulus glomeruli dcn conv shuffle =
          Except.ok es ∧
        es.countP (fun e => decide (e.2 = d.id)) = conv) ∧
    (∀ (firstGlomerulus : ℚ) (glomeruli dcn : List Cell) (conv : ℕ)
      (shuffle : ℕ → List ℚ → List ℚ),
      glomeruli.length < conv → dcn ≠ [] →
      connectome_glom_dcn firstGlomerulus glomeruli dcn conv shuffle =
        Except.error
          "ValueError: cannot take a larger sample than population when replace is False") := by
  refine ⟨?_, ?_, ?_⟩
  · intro firstGlomerulus glomeruli granules dendLen n g hnd hmem
    exact glomGrc_count firstGlomerulus glomeruli dendLen n g granules hnd hmem
  · intro firstGlomerulus glomeruli dcn conv shuffle d hperm hle hnd hmem
    have hle2 : conv ≤ (glomeruli.map Cell.id).length := by simpa using hle
    have hlen : ∀ k, (shuffle k (glomeruli.map Cell.id)).length =
        (glomeruli.map Cell.id).length :=
      fun k => (hperm k (glomeruli.map Cell.id)).length_eq
    obtain ⟨es, h1, h2⟩ :=
      glomDcnLoop_ok shuffle (glomeruli.map Cell.id) conv hle2 hlen d.id dcn 0 []
    refine ⟨es, ?_, ?_⟩
    · rw [connectome_glom_dcn]
      exact h1
    · rw [h2]
      simpa using sum_if_id_eq conv d dcn hnd hmem
  · intro firstGlomerulus glomeruli dcn conv shuffle hgt hne
    match dcn, hne with
    | d :: rest, _ =>
      rw [connectome_glom_dcn]
      exact glomDcnLoop_error shuffle (glomeruli.map Cell.id) conv (by simpa using hgt)
        d rest 0 []

/-- C1, witness: the amended statement applied at concrete inputs — one
glomerulus at the origin and one granule within reach gives min(3, 1) = 1 edge;
one glomerulus and one DCN cell with convergence 1 succeeds with exactly one
edge; convergence 2 with a single glomerulus raises the ValueError. -/
theorem C1_amended_witness :
    ((connectome_glom_grc 0 [⟨0, 0, 0, 0, 0⟩] [⟨100, 0, 0, 0, 0⟩] 2 3).countP
      (fun e => decide (e.2 = (⟨100, 0, 0, 0, 0⟩ : Cell).id)) =
      min 3 (glomGrcGood [⟨0, 0, 0, 0, 0⟩] ⟨100, 0, 0, 0, 0⟩ 2).length) ∧
    (∃ es, connectome_glom_dcn 0 [⟨0, 0, 0, 0, 0⟩] [⟨1, 0, 0, 0, 0⟩] 1
        (fun _ l => l) = Except.ok es ∧
      es.countP (fun e => decide (e.2 = (⟨1, 0, 0, 0, 0⟩ : Cell).id)) = 1) ∧
    (connectome_glom_dcn 0 [⟨0, 0, 0, 0, 0⟩] [⟨1, 0, 0, 0, 0⟩] 2 (fun _ l => l) =
      Except.error
        "ValueError: cannot take a larger sample than population when replace is False") :=
  ⟨C1_amended.1 0 [⟨0, 0, 0, 0, 0⟩] [⟨100, 0, 0, 0, 0⟩] 2 3 ⟨100, 0, 0, 0, 0⟩
      (by simp) (by simp),
    C1_amended.2.1 0 [⟨0, 0, 0, 0, 0⟩] [⟨1, 0, 0, 0, 0⟩] 1 (fun _ l => l)
      ⟨1, 0, 0, 0, 0⟩ (fun _ _ => List.Perm.refl _) (by simp) (by simp) (by simp),
    C1_amended.2.2 0 [⟨0, 0, 0, 0, 0⟩] [⟨1, 0, 0, 0, 0⟩] 2 (fun _ l => l)
      (by simp) (by simp)⟩

/-- Additivity of two counts into one, given a pointwise case identity. -/
theorem countP_add_of_pointwise {α : Type} (p q ρ : α → Bool)
    (h : ∀ a, (if p a then 1 else 0) + (if q a then 1 else 0) =
      (if ρ a then 1 else 0)) :
    ∀ l : List α, l.countP p + l.countP q = l.countP ρ := by
  intro l
  induction l with
  | nil => rfl
  | cons a l ih =>
    rw [List.countP_cons, List.countP_cons, List.countP_cons]
    have := h a
    omega

/-- A value is among the glomeruli connected to golgi g (per the tag filter of
connectome_goc_grc) iff the pair (g, value) is an edge of the prior tag. -/
theorem mem_glomsOf (A : List Edge) (g v : ℚ) :
    v ∈ (A.filter (fun s => decide (s.1 = g))).map Prod.snd ↔ (g, v) ∈ A := by
  constructor
  · intro h
    obtain ⟨s, hs, rfl⟩ := List.mem_map.mp h
    obtain ⟨hsA, hdec⟩ := List.mem_filter.mp hs
    have h1 : s.1 = g := by simpa using hdec
    have : (g, s.2) = s := by
      cases s
      simp_all
    rw [this]
    exact hsA
  · intro h
    exact List.mem_map.mpr ⟨(g, v), List.mem_filter.mpr ⟨h, by simp⟩, rfl⟩

/-- Counting the witnesses of the relational join with a duplicate-free edge
set on the left: the number of pairs (s, r) with s = (g, m), r = (m, gr) equals
the number of rows r of glomGrc with r.2 = gr whose glomerulus (g, r.1) is an
edge of the left set. -/
theorem join_witness_count (glomGrc : List Edge) (g gr : ℚ) :
    ∀ A : List Edge, A.Nodup →
      ((A.flatMap (fun s => glomGrc.map (fun r => (s, r)))).countP
        (fun p => decide (p.1.1 = g ∧ p.1.2 = p.2.1 ∧ p.2.2 = gr))) =
      glomGrc.countP (fun r => decide ((g, r.1) ∈ A) && decide (r.2 = gr)) := by
  intro A
  induction A with
  | nil =>
    intro _
    have : glomGrc.countP
        (fun r => decide ((g, r.1) ∈ ([] : List Edge)) && decide (r.2 = gr)) = 0 :=
      List.countP_eq_zero.mpr (by intro r _; simp)
    simp [this]
  | cons s A ih =>
    intro hnd
    have hs : s ∉ A := (List.nodup_cons.mp hnd).1
    have hnd' : A.Nodup := (List.nodup_cons.mp hnd).2
    rw [List.flatMap_cons, List.countP_append, List.countP_map, ih hnd']
    have hptw : ∀ r : Edge,
        (if ((fun p : Edge × Edge => decide (p.1.1 = g ∧ p.1.2 = p.2.1 ∧ p.2.2 = gr)) ∘
            fun r => (s, r)) r then 1 else 0) +
        (if decide ((g, r.1) ∈ A) && decide (r.2 = gr) then 1 else 0) =
        (if decide ((g, r.1) ∈ s :: A) && decide (r.2 = gr) then 1 else 0) := by
      intro r
      simp only [Function.comp_apply, Bool.and_eq_true, decide_eq_true_eq,
        List.mem_cons]
      by_cases hr2 : r.2 = gr
      · by_cases heq : s = (g, r.1)
        · have h1 : s.1 = g := by rw [heq]
          have h2 : s.2 = r.1 := by rw [heq]
          have hnotA : (g, r.1) ∉ A := heq ▸ hs
          simp [h1, h2, hr2, heq, hnotA]
        · have : ¬(s.1 = g ∧ s.2 = r.1 ∧ r.2 = gr) := by
            rintro ⟨ha, hb, _⟩
            exact heq (by cases s; simp_all)
          by_cases hA : (g, r.1) ∈ A
          · simp [hr2, hA]
            intro h1 h2
            exact this ⟨h1, h2, hr2⟩
          · have : ¬((g, r.1) = s ∨ (g, r.1) ∈ A) := by
              rintro (hc | hc)
              · exact heq hc.symm
              · exact hA hc
            simp_all
      · simp [hr2]
    exact countP_add_of_pointwise _ _ _ hptw glomGrc

/-- Per-golgi decomposition of the edge count of connectome_goc_grc: with
duplicate-free golgi ids, the count of (g, gr) is the contribution of the
single golgi with id g (zero if there is none). -/
theorem gocGrc_code_count (glomGrc A : List Edge) (g gr : ℚ) :
    ∀ ids : List ℚ, ids.Nodup →
      ((ids.flatMap (fun golgiId =>
        (((glomGrc.filter (fun r => decide (r.1 ∈
            (A.filter (fun s => decide (s.1 = golgiId))).map Prod.snd))).map
              Prod.snd).map (fun v => (golgiId, v))))).countP
        (fun e => decide (e = (g, gr)))) =
      if g ∈ ids then
        (glomGrc.filter (fun r => decide (r.1 ∈
          (A.filter (fun s => decide (s.1 = g))).map Prod.snd))).countP
            (fun r => decide (r.2 = gr))
      else 0 := by
  intro ids
  induction ids with
  | nil => intro _; simp
  | cons a l ih =>
    intro hnd
    have hs : a ∉ l := (List.nodup_cons.mp hnd).1
    have hnd' : l.Nodup := (List.nodup_cons.mp hnd).2
    rw [List.flatMap_cons, List.countP_append, List.countP_map, List.countP_map,
      ih hnd']
    by_cases hag : a = g
    · rw [hag] at hs ⊢
      have hblk : ((glomGrc.filter (fun r => decide (r.1 ∈
          (A.filter (fun s => decide (s.1 = g))).map Prod.snd))).countP
            (((fun e => decide (e = (g, gr))) ∘ fun v => (g, v)) ∘ Prod.snd)) =
          ((glomGrc.filter (fun r => decide (r.1 ∈
            (A.filter (fun s => decide (s.1 = g))).map Prod.snd))).countP
              (fun r => decide (r.2 = gr))) := by
        refine List.countP_congr ?_
        intro r _
        simp [Function.comp_apply]
      rw [hblk]
      simp [hs]
    · have hblk : ((glomGrc.filter (fun r => decide (r.1 ∈
          (A.filter (fun s => decide (s.1 = a))).map Prod.snd))).countP
            (((fun e => decide (e = (g, gr))) ∘ fun v => (a, v)) ∘ Prod.snd)) = 0 := by
        refine List.countP_eq_zero.mpr ?_
        intro r _
        simp only [Function.comp_apply, decide_eq_true_eq]
        intro hc
        exact hag (congrArg Prod.fst hc)
      rw [hblk]
      have hmem : (g ∈ a :: l) ↔ (g ∈ l) := by
        constructor
        · intro h
          rcases List.mem_cons.mp h with hc | hc
          · exact absurd hc.symm hag
          · exact hc
        · exact fun h => List.mem_cons_of_mem a h
      by_cases hgl : g ∈ l
      · simp [hmem.mpr hgl, hgl]
      · have : g ∉ a :: l := fun hc => hgl (hmem.mp hc)
        simp [this, hgl]

/-- C10: connectome_goc_grc computes exactly the relational join of the two
prior tagged edge sets: for duplicate-free golgi ids, a duplicate-free
golgi_to_glomerulus edge set whose golgi ids all belong to the golgi
population, the multiplicity of each emitted edge (g, gr) equals the number of
witness pairs of a golgi_to_glomerulus edge (g, m) and a glomerulus_to_granule
edge (m, gr) sharing the glomerulus m. -/
theorem C10_goc_grc_join (golgis : List Cell) (glomGrc gocGlom : List Edge)
    (hnd : (golgis.map Cell.id).Nodup) (hpairs : gocGlom.Nodup)
    (hcov : ∀ s ∈ gocGlom, s.1 ∈ golgis.map Cell.id) (g gr : ℚ) :
    (connectome_goc_grc golgis glomGrc gocGlom).countP
      (fun e => decide (e = (g, gr))) =
    ((gocGlom.flatMap (fun s => glomGrc.map (fun r => (s, r)))).filter
      (fun p => decide (p.1.1 = g ∧ p.1.2 = p.2.1 ∧ p.2.2 = gr))).length := by
  have hdef : connectome_goc_grc golgis glomGrc gocGlom =
      (golgis.map Cell.id).flatMap (fun golgiId =>
        (((glomGrc.filter (fun r => decide (r.1 ∈
          (gocGlom.filter (fun s => decide (s.1 = golgiId))).map Prod.snd))).map
            Prod.snd).map (fun v => (golgiId, v)))) := rfl
  rw [hdef, gocGrc_code_count glomGrc gocGlom g gr (golgis.map Cell.id) hnd,
    ← List.countP_eq_length_filter, join_witness_count glomGrc g gr gocGlom hpairs]
  by_cases hg : g ∈ golgis.map Cell.id
  · rw [if_pos hg, List.countP_filter]
    refine List.countP_congr ?_
    intro r _
    simp only [Bool.and_eq_true, decide_eq_true_eq, mem_glomsOf]
    exact ⟨fun h => ⟨h.2, h.1⟩, fun h => ⟨h.2, h.1⟩⟩
  · rw [if_neg hg]
    symm
    refine List.countP_eq_zero.mpr ?_
    intro r _
    simp only [Bool.and_eq_true, decide_eq_true_eq, not_and]
    intro hmem _
    exact hg (hcov (g, r.1) hmem)

/-- C10, witness: one golgi with id 1, prior edges golgi_to_glomerulus (1, 2)
and glomerulus_to_granule (2, 3): the emitted edge (1, 3) has multiplicity 1,
matching its single witness pair. -/
theorem C10_goc_grc_join_witness :
    (connectome_goc_grc [⟨1, 0, 0, 0, 0⟩] [(2, 3)] [(1, 2)]).countP
      (fun e => decide (e = ((1 : ℚ), (3 : ℚ)))) =
    ((([((1 : ℚ), (2 : ℚ))]).flatMap
        (fun s => ([((2 : ℚ), (3 : ℚ))]).map (fun r => (s, r)))).filter
      (fun p => decide (p.1.1 = 1 ∧ p.1.2 = p.2.1 ∧ p.2.2 = 3))).length :=
  C10_goc_grc_join [⟨1, 0, 0, 0, 0⟩] [(2, 3)] [(1, 2)] (by simp) (by simp)
    (by intro s hs; rw [List.mem_singleton] at hs; subst hs; simp) 1 3

/-- Reading an untouched reference after a write. -/
theorem Heap.read_write_ne (h : Heap) (r s : ℕ) (v : List Cell) (hne : r ≠ s) :
    (h.write s v).read r = h.read r := by
  simp [Heap.read, Heap.write, hne]

/-- Reading below the allocation frontier after an allocation. -/
theorem Heap.read_alloc_lt (h : Heap) (v : List Cell) (r : ℕ) (hr : r < h.next) :
    ((h.alloc v).1).read r = h.read r := by
  have : r ≠ h.next := Nat.ne_of_lt hr
  simp [Heap.read, Heap.alloc, this]

/-- The purkinje loop of connectome_aa_pc writes only the working-copy
reference. -/
theorem aaPcHeapLoop_read_ne (firstGranule xPc zPc oobValue : ℚ) (newRef r : ℕ)
    (hne : r ≠ newRef) :
    ∀ (ps : List Cell) (h : Heap) (acc : List Edge),
      ((aaPcHeapLoop firstGranule xPc zPc oobValue newRef ps h acc).1).read r =
        h.read r := by
  intro ps
  induction ps with
  | nil => intro h acc; rfl
  | cons p rest ih =>
    intro h acc
    rw [aaPcHeapLoop, ih, Heap.read_write_ne]
    exact hne

/-- The golgi loop of connectome_goc_glom writes only the working-copy
reference. -/
theorem gocGlomHeapLoop_read_ne (rGlom axonX axonY axonZ layerThickness oob
    firstGlomerulus : ℚ) (nConnGoc : ℕ) (glomeruli : List Cell)
    (shuffleIdx : ℕ → List ℕ → List ℕ) (rolls : ℕ → ℕ → ℚ) (newRef r : ℕ)
    (hne : r ≠ newRef) :
    ∀ (gs : List Cell) (k : ℕ) (h : Heap) (conns : List Edge),
      ((gocGlomHeapLoop rGlom axonX axonY axonZ layerThickness oob firstGlomerulus
        nConnGoc glomeruli shuffleIdx rolls newRef gs k h conns).1).read r =
        h.read r := by
  intro gs
  induction gs with
  | nil => intro k h conns; rfl
  | cons p rest ih =>
    intro k h conns
    rw [gocGlomHeapLoop, ih, Heap.read_write_ne]
    exact hne

/-- The golgi loop of connectome_grc_goc writes only the working-copy
reference, whether or not it raises. -/
theorem grcGocHeapLoop_read_ne (firstGranule rGocVol oobValue : ℚ)
    (nConnAA totConn : ℕ) (shuffleAA shufflePF : ℕ → List ℕ → List ℕ)
    (rolls : ℕ → ℕ → ℚ) (granRef newRef r : ℕ) (hne : r ≠ newRef) :
    ∀ (gs : List Cell) (k : ℕ) (h : Heap) (aa pf : List Edge),
      ((grcGocHeapLoop firstGranule rGocVol oobValue nConnAA totConn shuffleAA
        shufflePF rolls granRef newRef gs k h aa pf).1).read r = h.read r := by
  intro gs
  induction gs with
  | nil => intro k h aa pf; rfl
  | cons p rest ih =>
    intro k h aa pf
    rw [grcGocHeapLoop]
    cases hstep : grcGocStep firstGranule rGocVol oobValue nConnAA totConn shuffleAA
      shufflePF rolls k p (h.read granRef) (h.read newRef) aa pf with
    | error e => rfl
    | ok s =>
      rw [ih, Heap.read_write_ne]
      exact hne

/-- C8: none of the sentinel-marking strategies modifies the population array
it reads: connectome_goc_glom, connectome_grc_goc (even when it raises) and
connectome_aa_pc write only the np.copy working reference, so the population
array held by the scaffold is element-for-element unchanged after each run,
for every outcome of the random draws. -/
theorem C8_populations_unchanged :
    (∀ (firstGlomerulus : ℚ) (glomRef : ℕ) (golgicells : List Cell)
      (axonX axonY axonZ rGlom : ℚ) (nConnGoc : ℕ) (layerThickness oob : ℚ)
      (shuffleGolgi : List Cell → List Cell) (shuffleIdx : ℕ → List ℕ → List ℕ)
      (rolls : ℕ → ℕ → ℚ) (h : Heap), glomRef < h.next →
      ((connectome_goc_glom_heap firstGlomerulus glomRef golgicells axonX axonY
        axonZ rGlom nConnGoc layerThickness oob shuffleGolgi shuffleIdx rolls
        h).1).read glomRef = h.read glomRef) ∧
    (∀ (firstGranule : ℚ) (granRef : ℕ) (golgicells : List Cell)
      (rGocVol oobValue : ℚ) (nConnAA nConnPf totConn : ℕ)
      (shuffleGolgi : List Cell → List Cell)
      (shuffleAA shufflePF : ℕ → List ℕ → List ℕ) (rolls : ℕ → ℕ → ℚ)
      (h : Heap), granRef < h.next →
      ((connectome_grc_goc_heap firstGranule granRef golgicells rGocVol oobValue
        nConnAA nConnPf totConn shuffleGolgi shuffleAA shufflePF rolls
        h).1).read granRef = h.read granRef) ∧
    (∀ (firstGranule : ℚ) (granRef : ℕ) (purkinjes : List Cell)
      (xPc zPc oobValue : ℚ) (h : Heap), granRef < h.next →
      ((connectome_aa_pc_heap firstGranule granRef purkinjes xPc zPc oobValue
        h).1).read granRef = h.read granRef) := by
  refine ⟨?_, ?_, ?_⟩
  · intro firstGlomerulus glomRef golgicells axonX axonY axonZ rGlom nConnGoc
      layerThickness oob shuffleGolgi shuffleIdx rolls h hlt
    rw [connectome_goc_glom_heap]
    have halloc2 : (h.alloc (h.read glomRef)).2 = h.next := rfl
    rw [halloc2, gocGlomHeapLoop_read_ne _ _ _ _ _ _ _ _ _ _ _ _ _
      (Nat.ne_of_lt hlt)]
    exact Heap.read_alloc_lt h _ glomRef hlt
  · intro firstGranule granRef golgicells rGocVol oobValue nConnAA nConnPf totConn
      shuffleGolgi shuffleAA shufflePF rolls h hlt
    rw [connectome_grc_goc_heap]
    by_cases hsz : (((h.alloc (h.read granRef)).1.read (h.alloc (h.read granRef)).2).length
        ≤ (shuffleGolgi golgicells).length)
    · simp only [hsz, if_true]
      exact Heap.read_alloc_lt h _ granRef hlt
    · simp only [hsz, if_false]
      cases hloop : grcGocHeapLoop firstGranule rGocVol oobValue nConnAA totConn
        shuffleAA shufflePF rolls granRef (h.alloc (h.read granRef)).2
        (shuffleGolgi golgicells) 0 (h.alloc (h.read granRef)).1 [] [] with
    | mk h2 res =>
      have hpres := grcGocHeapLoop_read_ne firstGranule rGocVol oobValue nConnAA
        totConn shuffleAA shufflePF rolls granRef (h.alloc (h.read granRef)).2
        granRef (Nat.ne_of_lt hlt) (shuffleGolgi golgicells) 0
        (h.alloc (h.read granRef)).1 [] []
      rw [hloop] at hpres
      cases res with
      | error e =>
        simp only [hloop]
        rw [hpres]
        exact Heap.read_alloc_lt h _ granRef hlt
      | ok s =>
        simp only [hloop]
        rw [hpres]
        exact Heap.read_alloc_lt h _ granRef hlt
  · intro firstGranule granRef purkinjes xPc zPc oobValue h hlt
    rw [connectome_aa_pc_heap]
    have halloc2 : (h.alloc (h.read granRef)).2 = h.next := rfl
    rw [halloc2, aaPcHeapLoop_read_ne _ _ _ _ _ _ (Nat.ne_of_lt hlt)]
    exact Heap.read_alloc_lt h _ granRef hlt

/-- C8, witness: the frame property applied to a concrete one-reference heap
holding a single-cell granule population, for each of the three strategies. -/
theorem C8_populations_unchanged_witness :
    (((connectome_goc_glom_heap 0 0 [⟨1, 0, 0, 0, 0⟩] 1 1 1 1 2 1 1000 id
        (fun _ l => l) (fun _ _ => 0)
        ⟨fun _ => [⟨0, 0, 0, 0, 0⟩], 1⟩).1).read 0 =
      (⟨fun _ => [⟨0, 0, 0, 0, 0⟩], 1⟩ : Heap).read 0) ∧
    (((connectome_grc_goc_heap 0 0 [⟨1, 0, 0, 0, 0⟩] 1 1000 1 1 2 id
        (fun _ l => l) (fun _ l => l) (fun _ _ => 0)
        ⟨fun _ => [⟨0, 0, 0, 0, 0⟩], 1⟩).1).read 0 =
      (⟨fun _ => [⟨0, 0, 0, 0, 0⟩], 1⟩ : Heap).read 0) ∧
    (((connectome_aa_pc_heap 0 0 [⟨1, 0, 0, 0, 0⟩] 1 1 1000
        ⟨fun _ => [⟨0, 0, 0, 0, 0⟩], 1⟩).1).read 0 =
      (⟨fun _ => [⟨0, 0, 0, 0, 0⟩], 1⟩ : Heap).read 0) :=
  ⟨C8_populations_unchanged.1 0 0 [⟨1, 0, 0, 0, 0⟩] 1 1 1 1 2 1 1000 id
      (fun _ l => l) (fun _ _ => 0) ⟨fun _ => [⟨0, 0, 0, 0, 0⟩], 1⟩ (by decide),
    C8_populations_unchanged.2.1 0 0 [⟨1, 0, 0, 0, 0⟩] 1 1000 1 1 2 id
      (fun _ l => l) (fun _ l => l) (fun _ _ => 0)
      ⟨fun _ => [⟨0, 0, 0, 0, 0⟩], 1⟩ (by decide),
    C8_populations_unchanged.2.2 0 0 [⟨1, 0, 0, 0, 0⟩] 1 1 1000
      ⟨fun _ => [⟨0, 0, 0, 0, 0⟩], 1⟩ (by decide)⟩

/-- Python int() of a nonnegative integer value is exact. -/
theorem pyInt_natCast (i : ℕ) : pyInt ((i : ℕ) : ℚ) = i := by
  unfold pyInt
  rw [Rat.num_natCast, Rat.den_natCast]
  simp

/-- A numpy index computed from a nonnegative integer value is exact. -/
theorem pyWrapIdx_natCast (i : ℕ) (len : ℕ) : pyWrapIdx ((i : ℕ) : ℚ) len = i := by
  unfold pyWrapIdx
  rw [pyInt_natCast]
  simp

/-- Reading the just-written row of a working copy. -/
theorem getD_set_self (l : List Cell) (i : ℕ) (v : Cell) (h : i < l.length) :
    (l.set i v).getD i dflt = v := by
  rw [List.getD_eq_getElem?_getD]
  simp [List.getElem?_set_self', h]

/-- Reading an untouched row of a working copy. -/
theorem getD_set_ne (l : List Cell) (i j : ℕ) (v : Cell) (h : j ≠ i) :
    (l.set i v).getD j dflt = l.getD j dflt := by
  rw [List.getD_eq_getElem?_getD, List.getD_eq_getElem?_getD,
    List.getElem?_set_ne (by omega)]

/-- With densely packed ids (id = first + row), ids determine rows. -/
theorem dense_inj (glomeruli : List Cell) (firstGlomerulus : ℚ)
    (hdense : ∀ i, i < glomeruli.length →
      (glomeruli.getD i dflt).id = firstGlomerulus + i)
    (i j : ℕ) (hi : i < glomeruli.length) (hj : j < glomeruli.length)
    (hid : (glomeruli.getD i dflt).id = (glomeruli.getD j dflt).id) : i = j := by
  rw [hdense i hi, hdense j hj] at hid
  have : (i : ℚ) = (j : ℚ) := by linarith
  exact_mod_cast this

/-- A sentinel row can never be accepted by the probabilistic gate of
connectome_goc_glom: its normalized distance to any golgi within the oob
hypothesis is at least 1, while a roll below 1 only accepts distances below 1. -/
theorem accept_not_oob (c : Cell) (lt oob gx gy ra : ℚ) (hlt : 0 < lt)
    (hoobg : lt ^ 2 ≤ (oob - gx) ^ 2 + (oob - gy) ^ 2) (hra : ra < 1)
    (hacc : gtSqrtDiv ra ((c.x - gx) ^ 2 + (c.y - gy) ^ 2) lt = true) :
    c ≠ oobCell oob := by
  intro hc
  rw [hc] at hacc
  unfold gtSqrtDiv at hacc
  rw [if_pos hlt] at hacc
  have h2 := of_decide_eq_true hacc
  obtain ⟨h0, hD⟩ := h2
  have hxy : (oobCell oob).x = oob ∧ (oobCell oob).y = oob := ⟨rfl, rfl⟩
  rw [hxy.1, hxy.2] at hD
  have hra2 : ra ^ 2 < 1 := by nlinarith
  have hlt2 : 0 < lt ^ 2 := by positivity
  have hmul : (ra * lt) ^ 2 = ra ^ 2 * lt ^ 2 := by ring
  have : ra ^ 2 * lt ^ 2 < 1 * lt ^ 2 := mul_lt_mul_of_pos_right hra2 hlt2
  rw [hmul] at hD
  linarith

/-- The snapshot precondition restricts to the tail of the walk. -/
theorem gocGlomSnap_tail (glomeruli : List Cell) (firstGlomerulus oob : ℚ)
    (c : Cell) (rest : List Cell) (conns : List Edge)
    (h : GocGlomSnap glomeruli firstGlomerulus oob (c :: rest) conns) :
    GocGlomSnap glomeruli firstGlomerulus oob rest conns := by
  obtain ⟨h1, h2, h3⟩ := h
  refine ⟨fun c' hc' => h1 c' (List.mem_cons_of_mem _ hc'),
    fun c' hc' => h2 c' (List.mem_cons_of_mem _ hc'), ?_⟩
  rw [List.filter_cons] at h3
  by_cases hp : (!decide (c = oobCell oob)) = true
  · rw [if_pos hp] at h3
    exact (List.nodup_cons.mp h3).2
  · rw [if_neg hp] at h3
    exact h3

/-- The candidate walk of connectome_goc_glom preserves the working-copy
invariant: accepted rows are always original (non-sentinel) rows not yet
connected, they are sentinel-marked on acceptance, and the to column never
acquires a duplicate. -/
theorem gocGlomWalk_inv (glomeruli : List Cell) (firstGlomerulus lt oob : ℚ)
    (n : ℕ) (golgiId gx gy : ℚ) (roll : ℕ → ℚ) (hlt : 0 < lt)
    (hoobg : lt ^ 2 ≤ (oob - gx) ^ 2 + (oob - gy) ^ 2)
    (hroll : ∀ p, 0 ≤ roll p ∧ roll p < 1)
    (hdense : ∀ i, i < glomeruli.length →
      (glomeruli.getD i dflt).id = firstGlomerulus + i) :
    ∀ (cs : List Cell) (pos idx : ℕ) (gloms : List Cell) (conns : List Edge),
      GocGlomInv glomeruli firstGlomerulus oob gloms conns →
      GocGlomSnap glomeruli firstGlomerulus oob cs conns →
      GocGlomInv glomeruli firstGlomerulus oob
        (gocGlomWalk firstGlomerulus lt oob n golgiId gx gy roll cs pos idx
          gloms conns).1
        (gocGlomWalk firstGlomerulus lt oob n golgiId gx gy roll cs pos idx
          gloms conns).2 := by
  intro cs
  induction cs with
  | nil =>
    intro pos idx gloms conns hinv _
    exact hinv
  | cons c rest ih =>
    intro pos idx gloms conns hinv hsnap
    rw [gocGlomWalk]
    split_ifs with hidx hacc
    · -- accepted: the row is original, fresh, and gets sentinel-marked
      have hcnoob : c ≠ oobCell oob :=
        accept_not_oob c lt oob gx gy (roll pos) hlt hoobg (hroll pos).2 hacc
      obtain ⟨i, hiN, hc⟩ :=
        (hsnap.1 c (List.mem_cons_self c rest)).resolve_left hcnoob
      have hlen : gloms.length = glomeruli.length := hinv.1
      have hidq : c.id - firstGlomerulus = ((i : ℕ) : ℚ) := by
        rw [hc, hdense i hiN]
        ring
      have hidx2 : pyWrapIdx (c.id - firstGlomerulus) gloms.length = i := by
        rw [hidq, pyWrapIdx_natCast]
      rw [hidx2]
      have hfresh : ∀ e ∈ conns, e.2 ≠ c.id + firstGlomerulus :=
        hsnap.2.1 c (List.mem_cons_self c rest) hcnoob
      have hil : i < gloms.length := by omega
      refine ih (pos + 1) (idx + 1) _ _ ⟨?_, ?_, ?_, ?_⟩ ⟨?_, ?_, ?_⟩
      · rw [List.length_set]
        exact hlen
      · intro i' hi'
        by_cases hii : i' = i
        · subst hii
          right
          exact getD_set_self gloms i' (oobCell oob) hil
        · rw [getD_set_ne gloms i i' (oobCell oob) hii]
          exact hinv.2.1 i' hi'
      · rw [List.map_append]
        rw [List.nodup_append]
        refine ⟨hinv.2.2.1, by simp, ?_⟩
        intro a ha hb
        simp only [List.map_cons, List.map_nil, List.mem_singleton] at hb
        obtain ⟨e, he, hea⟩ := List.mem_map.mp ha
        exact hfresh e he (hea.trans hb)
      · intro e he
        rcases List.mem_append.mp he with he' | he'
        · obtain ⟨ie, hieN, heq, hrow⟩ := hinv.2.2.2 e he'
          refine ⟨ie, hieN, heq, ?_⟩
          by_cases hii : ie = i
          · subst hii
            exact getD_set_self gloms ie (oobCell oob) hil
          · rw [getD_set_ne gloms i ie (oobCell oob) hii]
            exact hrow
        · have he2 : e = (golgiId, c.id + firstGlomerulus) :=
            List.mem_singleton.mp he'
          refine ⟨i, hiN, ?_, getD_set_self gloms i (oobCell oob) hil⟩
          rw [he2, ← hc]
      · intro c' hc'
        exact hsnap.1 c' (List.mem_cons_of_mem _ hc')
      · intro c' hc' hc'noob e he
        rcases List.mem_append.mp he with he' | he'
        · exact hsnap.2.1 c' (List.mem_cons_of_mem _ hc') hc'noob e he'
        · have he2 : e = (golgiId, c.id + firstGlomerulus) :=
            List.mem_singleton.mp he'
          rw [he2]
          intro habs
          have hcid : c.id = c'.id := by
            have := congrArg (fun q => q - firstGlomerulus) habs
            simpa using this
          obtain ⟨i', hi'N, hc'eq⟩ :=
            (hsnap.1 c' (List.mem_cons_of_mem _ hc')).resolve_left hc'noob
          have : i = i' := by
            refine dense_inj glomeruli firstGlomerulus hdense i i' hiN hi'N ?_
            rw [← hc, ← hc'eq, hcid]
          have hcc' : c = c' := by rw [hc, hc'eq, this]
          have hflt := hsnap.2.2
          rw [List.filter_cons, if_pos (by simpa using hcnoob)] at hflt
          have hcnot := (List.nodup_cons.mp hflt).1
          exact hcnot (by
            rw [hcc']
            exact List.mem_filter.mpr ⟨hc', by simpa using hc'noob⟩)
      · exact (gocGlomSnap_tail glomeruli firstGlomerulus oob c rest conns hsnap).2.2
    · exact ih (pos + 1) idx gloms conns hinv
        (gocGlomSnap_tail glomeruli firstGlomerulus oob c rest conns hsnap)
    · exact ih (pos + 1) idx gloms conns hinv
        (gocGlomSnap_tail glomeruli firstGlomerulus oob c rest conns hsnap)

/-- One golgi iteration of connectome_goc_glom preserves the working-copy
invariant: the snapshot it walks satisfies the snapshot precondition. -/
theorem gocGlomStep_inv (glomeruli : List Cell)
    (rGlom axonX axonY axonZ layerThickness oob firstGlomerulus : ℚ)
    (nConnGoc : ℕ) (shuffleIdx : ℕ → List ℕ → List ℕ) (rolls : ℕ → ℕ → ℚ)
    (hlt : 0 < layerThickness)
    (hdense : ∀ i, i < glomeruli.length →
      (glomeruli.getD i dflt).id = firstGlomerulus + i)
    (hshufI : ∀ k l, (shuffleIdx k l).Perm l)
    (hroll : ∀ k p, 0 ≤ rolls k p ∧ rolls k p < 1)
    (k : ℕ) (golgi : Cell)
    (hoobg : layerThickness ^ 2 ≤ (oob - golgi.x) ^ 2 + (oob - golgi.y) ^ 2)
    (gloms : List Cell) (conns : List Edge)
    (hinv : GocGlomInv glomeruli firstGlomerulus oob gloms conns) :
    GocGlomInv glomeruli firstGlomerulus oob
      (gocGlomStep rGlom axonX axonY axonZ layerThickness oob firstGlomerulus
        nConnGoc glomeruli shuffleIdx rolls k golgi gloms conns).1
      (gocGlomStep rGlom axonX axonY axonZ layerThickness oob firstGlomerulus
        nConnGoc glomeruli shuffleIdx rolls k golgi gloms conns).2 := by
  simp only [gocGlomStep]
  refine gocGlomWalk_inv glomeruli firstGlomerulus layerThickness oob nConnGoc
    golgi.id golgi.x golgi.y (rolls k) hlt hoobg (hroll k) hdense _ 0 1 gloms
    conns hinv ⟨?_, ?_, ?_⟩
  · intro c hc
    have hc2 := (List.mergeSort_perm _ _).subset hc
    obtain ⟨i, hich, rfl⟩ := List.mem_map.mp hc2
    have higood := (hshufI k _).subset hich
    have hiN : i < glomeruli.length :=
      List.mem_range.mp (List.mem_filter.mp higood).1
    rcases hinv.2.1 i hiN with horig | hoob2
    · exact Or.inr ⟨i, hiN, horig⟩
    · exact Or.inl hoob2
  · intro c hc hcnoob e he
    have hc2 := (List.mergeSort_perm _ _).subset hc
    obtain ⟨i, hich, rfl⟩ := List.mem_map.mp hc2
    have higood := (hshufI k _).subset hich
    have hiN : i < glomeruli.length :=
      List.mem_range.mp (List.mem_filter.mp higood).1
    have horig : gloms.getD i dflt = glomeruli.getD i dflt :=
      (hinv.2.1 i hiN).resolve_right hcnoob
    obtain ⟨ie, hieN, heq, hrow⟩ := hinv.2.2.2 e he
    rw [heq, horig]
    intro habs
    have hids : (glomeruli.getD ie dflt).id = (glomeruli.getD i dflt).id := by
      have := congrArg (fun q => q - firstGlomerulus) habs
      simpa using this
    have hie : ie = i := dense_inj glomeruli firstGlomerulus hdense ie i hieN hiN hids
    rw [hie] at hrow
    exact hcnoob hrow
  · have hperm := (List.mergeSort_perm
      ((shuffleIdx k ((List.range glomeruli.length).filter (fun i =>
        gocGlomGate rGlom axonX axonY axonZ golgi (glomeruli.getD i dflt)))).map
          (fun i => gloms.getD i dflt))
      (fun a b => leSqrtDiv ((a.x - golgi.x) ^ 2 + (a.y - golgi.y) ^ 2)
        ((b.x - golgi.x) ^ 2 + (b.y - golgi.y) ^ 2) layerThickness)).filter
      (fun c => !decide (c = oobCell oob))
    refine hperm.nodup_iff.mpr ?_
    rw [List.filter_map]
    have hgoodnd : ((List.range glomeruli.length).filter (fun i =>
        gocGlomGate rGlom axonX axonY axonZ golgi (glomeruli.getD i dflt))).Nodup :=
      (List.nodup_range glomeruli.length).filter _
    have hchnd := (hshufI k _).nodup_iff.mpr hgoodnd
    refine List.Nodup.map_on ?_ (hchnd.filter _)
    intro x hx y hy hfxy
    have hx2 := List.mem_of_mem_filter hx
    have hy2 := List.mem_of_mem_filter hy
    have hxN : x < glomeruli.length :=
      List.mem_range.mp (List.mem_filter.mp ((hshufI k _).subset hx2)).1
    have hyN : y < glomeruli.length :=
      List.mem_range.mp (List.mem_filter.mp ((hshufI k _).subset hy2)).1
    have hpx : gloms.getD x dflt ≠ oobCell oob := by
      have := List.of_mem_filter hx
      simpa using this
    have hpy : gloms.getD y dflt ≠ oobCell oob := by
      have := List.of_mem_filter hy
      simpa using this
    have hox : gloms.getD x dflt = glomeruli.getD x dflt :=
      (hinv.2.1 x hxN).resolve_right hpx
    have hoy : gloms.getD y dflt = glomeruli.getD y dflt :=
      (hinv.2.1 y hyN).resolve_right hpy
    refine dense_inj glomeruli firstGlomerulus hdense x y hxN hyN ?_
    rw [← hox, ← hoy, hfxy]

/-- The golgi loop of connectome_goc_glom preserves the working-copy
invariant. -/
theorem gocGlomLoop_inv (glomeruli : List Cell)
    (rGlom axonX axonY axonZ layerThickness oob firstGlomerulus : ℚ)
    (nConnGoc : ℕ) (shuffleIdx : ℕ → List ℕ → List ℕ) (rolls : ℕ → ℕ → ℚ)
    (hlt : 0 < layerThickness)
    (hdense : ∀ i, i < glomeruli.length →
      (glomeruli.getD i dflt).id = firstGlomerulus + i)
    (hshufI : ∀ k l, (shuffleIdx k l).Perm l)
    (hroll : ∀ k p, 0 ≤ rolls k p ∧ rolls k p < 1) :
    ∀ (gs : List Cell),
      (∀ g ∈ gs, layerThickness ^ 2 ≤ (oob - g.x) ^ 2 + (oob - g.y) ^ 2) →
      ∀ (k : ℕ) (gloms : List Cell) (conns : List Edge),
        GocGlomInv glomeruli firstGlomerulus oob gloms conns →
        GocGlomInv glomeruli firstGlomerulus oob
          (gocGlomLoop rGlom axonX axonY axonZ layerThickness oob
            firstGlomerulus nConnGoc glomeruli shuffleIdx rolls gs k gloms
            conns).1
          (gocGlomLoop rGlom axonX axonY axonZ layerThickness oob
            firstGlomerulus nConnGoc glomeruli shuffleIdx rolls gs k gloms
            conns).2 := by
  intro gs
  induction gs with
  | nil => intro _ k gloms conns hinv; exact hinv
  | cons g rest ih =>
    intro hmem k gloms conns hinv
    rw [gocGlomLoop]
    exact ih (fun g' hg' => hmem g' (List.mem_cons_of_mem _ hg')) (k + 1) _ _
      (gocGlomStep_inv glomeruli rGlom axonX axonY axonZ layerThickness oob
        firstGlomerulus nConnGoc shuffleIdx rolls hlt hdense hshufI hroll k g
        (hmem g (List.mem_cons_self g rest)) gloms conns hinv)

/-- C3: in ConnectomeGolgiGlomerulus, for every outcome of the random draws,
every glomerulus occurs in at most one edge of the returned list: the to
column is duplicate-free. An accepted glomerulus is excluded by overwriting its
working-copy row with the oob sentinel; the geometric gate keeps reading the
original coordinates, but a sentinel row can never pass the probabilistic
acceptance because its normalized distance exceeds every roll. Hypotheses:
ids are densely packed (id = first_glomerulus + row), the layer thickness is
positive, the oob sentinel is at least one layer thickness away from every
golgi in the xy plane, rolls lie in [0, 1), and the shuffles are
permutations. -/
theorem C3_goc_glom_at_most_once (firstGlomerulus : ℚ)
    (glomeruli golgicells : List Cell) (axonX axonY axonZ rGlom : ℚ)
    (nConnGoc : ℕ) (layerThickness oob : ℚ)
    (shuffleGolgi : List Cell → List Cell) (shuffleIdx : ℕ → List ℕ → List ℕ)
    (rolls : ℕ → ℕ → ℚ)
    (hdense : ∀ i, i < glomeruli.length →
      (glomeruli.getD i dflt).id = firstGlomerulus + i)
    (hlt : 0 < layerThickness)
    (hoob : ∀ g ∈ golgicells,
      layerThickness ^ 2 ≤ (oob - g.x) ^ 2 + (oob - g.y) ^ 2)
    (hroll : ∀ k p, 0 ≤ rolls k p ∧ rolls k p < 1)
    (hshufG : (shuffleGolgi golgicells).Perm golgicells)
    (hshufI : ∀ k l, (shuffleIdx k l).Perm l) :
    ((connectome_goc_glom firstGlomerulus glomeruli golgicells axonX axonY
      axonZ rGlom nConnGoc layerThickness oob shuffleGolgi shuffleIdx
      rolls).map Prod.snd).Nodup := by
  have hinit : GocGlomInv glomeruli firstGlomerulus oob glomeruli [] :=
    ⟨rfl, fun i _ => Or.inl rfl, by simp, by simp⟩
  have := gocGlomLoop_inv glomeruli rGlom axonX axonY axonZ layerThickness oob
    firstGlomerulus nConnGoc shuffleIdx rolls hlt hdense hshufI hroll
    (shuffleGolgi golgicells)
    (fun g hg => hoob g (hshufG.subset hg)) 0 glomeruli [] hinit
  exact this.2.2.1

/-- C3, witness: one glomerulus with id 0 at the origin, one golgi, axon box 2,
glomerulus radius 1, layer thickness 1, sentinel 100, rolls 0, identity
shuffles: the to column of the result is duplicate-free. -/
theorem C3_goc_glom_at_most_once_witness :
    ((connectome_goc_glom 0 [⟨0, 0, 0, 0, 0⟩] [⟨10, 0, 0, 0, 0⟩] 2 2 2 1 2 1 100
      id (fun _ l => l) (fun _ _ => 0)).map Prod.snd).Nodup :=
  C3_goc_glom_at_most_once 0 [⟨0, 0, 0, 0, 0⟩] [⟨10, 0, 0, 0, 0⟩] 2 2 2 1 2 1 100
    id (fun _ l => l) (fun _ _ => 0)
    (by
      intro i hi
      rcases Nat.lt_one_iff.mp hi with rfl
      simp [dflt])
    (by norm_num)
    (by
      intro g hg
      rw [List.mem_singleton] at hg
      subst hg
      norm_num)
    (fun _ _ => by norm_num)
    (List.Perm.refl _)
    (fun _ _ => List.Perm.refl _)

/-- Every id collected by the ascending-axon walk comes from a walked
candidate pair. -/
theorem grcGocAAWalk_mem (rGocVol : ℚ) (nConnAA : ℕ) (roll : ℕ → ℚ) :
    ∀ (cs : List (Cell × ℚ)) (pos : ℕ) (acc : List ℚ),
      ∀ x ∈ grcGocAAWalk rGocVol nConnAA roll cs pos acc,
        x ∈ acc ∨ ∃ cd ∈ cs, x = cd.1.id := by
  intro cs
  induction cs with
  | nil => intro pos acc x hx; exact Or.inl hx
  | cons cd rest ih =>
    intro pos acc x hx
    rw [grcGocAAWalk] at hx
    split_ifs at hx with h1 h2
    · rcases ih (pos + 1) (acc ++ [cd.1.id]) x hx with hacc | ⟨cd', hcd', rfl⟩
      · rcases List.mem_append.mp hacc with h | h
        · exact Or.inl h
        · exact Or.inr ⟨cd, List.mem_cons_self cd rest, (List.mem_singleton.mp h)⟩
      · exact Or.inr ⟨cd', List.mem_cons_of_mem _ hcd', rfl⟩
    · rcases ih (pos + 1) acc x hx with h | ⟨cd', hcd', rfl⟩
      · exact Or.inl h
      · exact Or.inr ⟨cd', List.mem_cons_of_mem _ hcd', rfl⟩
    · rcases ih (pos + 1) acc x hx with h | ⟨cd', hcd', rfl⟩
      · exact Or.inl h
      · exact Or.inr ⟨cd', List.mem_cons_of_mem _ hcd', rfl⟩

/-- The ascending-axon walk collects at most n_connAA ids. -/
theorem grcGocAAWalk_length (rGocVol : ℚ) (nConnAA : ℕ) (roll : ℕ → ℚ) :
    ∀ (cs : List (Cell × ℚ)) (pos : ℕ) (acc : List ℚ), acc.length ≤ nConnAA →
      (grcGocAAWalk rGocVol nConnAA roll cs pos acc).length ≤ nConnAA := by
  intro cs
  induction cs with
  | nil => intro pos acc h; exact h
  | cons cd rest ih =>
    intro pos acc h
    rw [grcGocAAWalk]
    split_ifs with h1 h2
    · exact ih (pos + 1) _ (by simp; omega)
    · exact ih (pos + 1) acc h
    · exact ih (pos + 1) acc h

/-- np.delete succeeds on in-range nonnegative indices. -/
theorem npDelete_ok (l : List Cell) (idxs : List ℤ)
    (h : ∀ j ∈ idxs, 0 ≤ j ∧ j < (l.length : ℤ)) :
    ∃ out, npDelete l idxs = .ok out := by
  have hb : (idxs.all fun j =>
      decide (-(l.length : ℤ) ≤ j) && decide (j < (l.length : ℤ))) = true := by
    rw [List.all_eq_true]
    intro j hj
    have := h j hj
    simp only [Bool.and_eq_true, decide_eq_true_eq]
    omega
  exact ⟨_, by rw [npDelete, if_pos hb]⟩

/-- np.random.choice succeeds when the requested count does not exceed the
population. -/
theorem npChoice_ok {α : Type} (shuffle : List α → List α) (pop : List α)
    (k : ℕ) (h : k ≤ pop.length) :
    npChoice shuffle pop k = .ok ((shuffle pop).take k) := by
  rw [npChoice, if_pos h]

/-- A fancy-index sentinel assignment preserves the working-copy invariant. -/
theorem foldSet_ng (granules : List Cell) (oobValue : ℚ) :
    ∀ (idxs : List ℤ) (l : List Cell), GrcGocNg granules oobValue l →
      GrcGocNg granules oobValue
        (idxs.foldl (fun acc j =>
          acc.set (if j < 0 then (j + (acc.length : ℤ)).toNat else j.toNat)
            (oobCell oobValue)) l) := by
  intro idxs
  induction idxs with
  | nil => intro l h; exact h
  | cons j rest ih =>
    intro l h
    rw [List.foldl_cons]
    refine ih _ ⟨?_, ?_⟩
    · rw [List.length_set]
      exact h.1
    · intro i hi
      by_cases hij : i = (if j < 0 then (j + (l.length : ℤ)).toNat else j.toNat)
      · have hin : i < l.length := by
          rw [h.1]
          exact hi
        right
        rw [hij]
        exact getD_set_self l _ (oobCell oobValue) (hij ▸ hin)
      · rw [getD_set_ne l _ i (oobCell oobValue) hij]
        exact h.2 i hi

/-- The fancy-index sentinel assignment of connectome_grc_goc succeeds on
in-range indices and preserves the working-copy invariant. -/
theorem npSetRows_ok (granules : List Cell) (oobValue : ℚ) (l : List Cell)
    (idxs : List ℤ) (h : ∀ j ∈ idxs, 0 ≤ j ∧ j < (l.length : ℤ))
    (hng : GrcGocNg granules oobValue l) :
    ∃ out, npSetRows l idxs (oobCell oobValue) = .ok out ∧
      GrcGocNg granules oobValue out := by
  have hb : (idxs.all fun j =>
      decide (-(l.length : ℤ) ≤ j) && decide (j < (l.length : ℤ))) = true := by
    rw [List.all_eq_true]
    intro j hj
    have := h j hj
    simp only [Bool.and_eq_true, decide_eq_true_eq]
    omega
  exact ⟨_, by rw [npSetRows, if_pos hb], foldSet_ng granules oobValue idxs l hng⟩

/-- Every id collected by the ascending-axon phase is the id of an original
in-range granule row: sentinel rows are excluded by the distance gate, since
the sentinel sits further than r_goc_vol from the golgi in the xz plane. -/
theorem grcGocAACollect_mem (fgn : ℕ) (rGocVol oobValue : ℚ) (nConnAA : ℕ)
    (shuffleAA : ℕ → List ℕ → List ℕ) (rolls : ℕ → ℕ → ℚ)
    (granules : List Cell)
    (hdense : ∀ i, i < granules.length →
      (granules.getD i dflt).id = ((fgn : ℕ) : ℚ) + i)
    (hshufAA : ∀ k l, (shuffleAA k l).Perm l) (k : ℕ) (golgi : Cell)
    (hoobg : rGocVol ^ 2 < (oobValue - golgi.x) ^ 2 + (oobValue - golgi.z) ^ 2)
    (ng : List Cell) (hng : GrcGocNg granules oobValue ng) :
    ∀ x ∈ grcGocAACollect rGocVol nConnAA shuffleAA rolls k golgi ng,
      ∃ i, i < granules.length ∧ x = ((fgn : ℕ) : ℚ) + i := by
  intro x hx
  simp only [grcGocAACollect] at hx
  rcases grcGocAAWalk_mem rGocVol nConnAA (rolls k) _ 0 [] x hx with h | ⟨cd, hcd, rfl⟩
  · exact absurd h (List.not_mem_nil x)
  · have hcd2 := (List.mergeSort_perm _ _).subset hcd
    obtain ⟨i, hich, rfl⟩ := List.mem_map.mp hcd2
    have higood := (hshufAA k _).subset hich
    have hfil := List.mem_filter.mp higood
    have hiN : i < ng.length := List.mem_range.mp hfil.1
    have hgate : ((ng.getD i dflt).x - golgi.x) ^ 2 +
        ((ng.getD i dflt).z - golgi.z) ^ 2 ≤ rGocVol ^ 2 := by
      have := hfil.2
      simpa using this
    have hiN2 : i < granules.length := by
      rw [← hng.1]
      exact hiN
    rcases hng.2 i hiN2 with horig | hoobrow
    · refine ⟨i, hiN2, ?_⟩
      show (ng.getD i dflt).id = ((fgn : ℕ) : ℚ) + i
      rw [horig]
      exact hdense i hiN2
    · exfalso
      rw [hoobrow] at hgate
      have hx2 : (oobCell oobValue).x = oobValue := rfl
      have hz2 : (oobCell oobValue).z = oobValue := rfl
      rw [hx2, hz2] at hgate
      linarith

/-- The ascending-axon phase collects at most n_connAA ids. -/
theorem grcGocAACollect_length (rGocVol : ℚ) (nConnAA : ℕ)
    (shuffleAA : ℕ → List ℕ → List ℕ) (rolls : ℕ → ℕ → ℚ) (k : ℕ)
    (golgi : Cell) (ng : List Cell) :
    (grcGocAACollect rGocVol nConnAA shuffleAA rolls k golgi ng).length ≤
      nConnAA := by
  simp only [grcGocAACollect]
  exact grcGocAAWalk_length rGocVol nConnAA (rolls k) _ 0 [] (by simp)

/-- With densely packed granule ids, a sentinel far from the golgi in the xz
plane and a convergence budget of at least n_connAA, one golgi iteration of
connectome_grc_goc never raises and preserves the working-copy invariant. -/
theorem grcGocStep_ok (fgn : ℕ) (rGocVol oobValue : ℚ) (nConnAA totConn : ℕ)
    (shuffleAA shufflePF : ℕ → List ℕ → List ℕ) (rolls : ℕ → ℕ → ℚ)
    (granules : List Cell)
    (hdense : ∀ i, i < granules.length →
      (granules.getD i dflt).id = ((fgn : ℕ) : ℚ) + i)
    (hn : nConnAA ≤ totConn)
    (hshufAA : ∀ k l, (shuffleAA k l).Perm l) (k : ℕ) (golgi : Cell)
    (hoobg : rGocVol ^ 2 < (oobValue - golgi.x) ^ 2 + (oobValue - golgi.z) ^ 2)
    (ng : List Cell) (aa pf : List Edge)
    (hng : GrcGocNg granules oobValue ng) :
    ∃ s, grcGocStep ((fgn : ℕ) : ℚ) rGocVol oobValue nConnAA totConn shuffleAA
        shufflePF rolls k golgi granules ng aa pf = .ok s ∧
      GrcGocNg granules oobValue s.1 := by
  have hmem := grcGocAACollect_mem fgn rGocVol oobValue nConnAA shuffleAA rolls
    granules hdense hshufAA k golgi hoobg ng hng
  have hlenAA := grcGocAACollect_length rGocVol nConnAA shuffleAA rolls k golgi ng
  have hdelb : ∀ j ∈ (grcGocAACollect rGocVol nConnAA shuffleAA rolls k golgi
      ng).map (fun cid => pyInt (cid - ((fgn : ℕ) : ℚ))),
      0 ≤ j ∧ j < (granules.length : ℤ) := by
    intro j hj
    obtain ⟨cid, hcid, rfl⟩ := List.mem_map.mp hj
    obtain ⟨i, hiN, rfl⟩ := hmem cid hcid
    have hq : ((fgn : ℕ) : ℚ) + i - ((fgn : ℕ) : ℚ) = ((i : ℕ) : ℚ) := by ring
    rw [hq, pyInt_natCast]
    omega
  obtain ⟨goodGrc, hdel⟩ := npDelete_ok granules _ hdelb
  have hsetb : ∀ j ∈ (grcGocAACollect rGocVol nConnAA shuffleAA rolls k golgi
      ng).map (fun cid => pyInt cid - pyInt ((fgn : ℕ) : ℚ)),
      0 ≤ j ∧ j < (ng.length : ℤ) := by
    intro j hj
    obtain ⟨cid, hcid, rfl⟩ := List.mem_map.mp hj
    obtain ⟨i, hiN, rfl⟩ := hmem cid hcid
    have hq : ((fgn : ℕ) : ℚ) + i = (((fgn + i : ℕ) : ℕ) : ℚ) := by push_cast; ring
    rw [hq, pyInt_natCast, pyInt_natCast]
    have : ng.length = granules.length := hng.1
    omega
  obtain ⟨ng2, hset, hng2⟩ := npSetRows_ok granules oobValue ng _ hsetb hng
  have hcap : ¬(totConn < (grcGocAACollect rGocVol nConnAA shuffleAA rolls k
      golgi ng).length) := by omega
  simp only [grcGocStep, hdel, hcap, if_false]
  split_ifs with hb
  · rw [npChoice_ok _ _ _ (Nat.min_le_right _ _)]
    simp only [hset]
    exact ⟨_, rfl, hng2⟩
  · rw [npChoice_ok _ _ _ (by omega)]
    simp only [hset]
    exact ⟨_, rfl, hng2⟩

/-- The golgi loop of connectome_grc_goc never raises when ids are dense, the
sentinel is out of reach of every golgi and the budget covers n_connAA. -/
theorem grcGocLoop_ok (fgn : ℕ) (rGocVol oobValue : ℚ) (nConnAA totConn : ℕ)
    (shuffleAA shufflePF : ℕ → List ℕ → List ℕ) (rolls : ℕ → ℕ → ℚ)
    (granules : List Cell)
    (hdense : ∀ i, i < granules.length →
      (granules.getD i dflt).id = ((fgn : ℕ) : ℚ) + i)
    (hn : nConnAA ≤ totConn)
    (hshufAA : ∀ k l, (shuffleAA k l).Perm l) :
    ∀ gs : List Cell,
      (∀ g ∈ gs, rGocVol ^ 2 < (oobValue - g.x) ^ 2 + (oobValue - g.z) ^ 2) →
      ∀ (k : ℕ) (ng : List Cell) (aa pf : List Edge),
        GrcGocNg granules oobValue ng →
        ∃ s, grcGocLoop ((fgn : ℕ) : ℚ) rGocVol oobValue nConnAA totConn
          shuffleAA shufflePF rolls granules gs k ng aa pf = .ok s := by
  intro gs
  induction gs with
  | nil => intro _ k ng aa pf _; exact ⟨(ng, aa, pf), rfl⟩
  | cons g rest ih =>
    intro hgs k ng aa pf hng
    obtain ⟨s, hstep, hngs⟩ := grcGocStep_ok fgn rGocVol oobValue nConnAA totConn
      shuffleAA shufflePF rolls granules hdense hn hshufAA k g
      (hgs g (List.mem_cons_self g rest)) ng aa pf hng
    rw [grcGocLoop]
    simp only [hstep]
    exact ih (fun g' hg' => hgs g' (List.mem_cons_of_mem _ hg')) (k + 1) s.1
      s.2.1 s.2.2 hngs

/-- C2, amended: connectome_grc_goc raises the fatal supply error, before any
edge is emitted, exactly when the from population is smaller than OR EQUAL TO
the to population (the check at line 253 is non-strict); when the from
population is strictly larger, no supply error is raised and matching runs to
completion without error (given the dense-id invariant, an out-of-volume
sentinel and a total budget of at least n_connAA), for every outcome of the
random draws. -/
theorem C2_amended :
    (∀ (firstGranule : ℚ) (granules golgicells : List Cell)
      (rGocVol oobValue : ℚ) (nConnAA nConnPf totConn : ℕ)
      (shuffleGolgi : List Cell → List Cell)
      (shuffleAA shufflePF : ℕ → List ℕ → List ℕ) (rolls : ℕ → ℕ → ℚ),
      (shuffleGolgi golgicells).Perm golgicells →
      granules.length ≤ golgicells.length →
      connectome_grc_goc firstGranule granules golgicells rGocVol oobValue
        nConnAA nConnPf totConn shuffleGolgi shuffleAA shufflePF rolls =
        .error "The number of granule cells was less than the number of golgi cells. Simulation cannot continue.") ∧
    (∀ (fgn : ℕ) (granules golgicells : List Cell) (rGocVol oobValue : ℚ)
      (nConnAA nConnPf totConn : ℕ) (shuffleGolgi : List Cell → List Cell)
      (shuffleAA shufflePF : ℕ → List ℕ → List ℕ) (rolls : ℕ → ℕ → ℚ),
      (shuffleGolgi golgicells).Perm golgicells →
      (∀ k l, (shuffleAA k l).Perm l) →
      (∀ i, i < granules.length →
        (granules.getD i dflt).id = ((fgn : ℕ) : ℚ) + i) →
      nConnAA ≤ totConn →
      (∀ g ∈ golgicells,
        rGocVol ^ 2 < (oobValue - g.x) ^ 2 + (oobValue - g.z) ^ 2) →
      golgicells.length < granules.length →
      ∃ res, connectome_grc_goc ((fgn : ℕ) : ℚ) granules golgicells rGocVol
        oobValue nConnAA nConnPf totConn shuffleGolgi shuffleAA shufflePF
        rolls = .ok res) := by
  constructor
  · intro firstGranule granules golgicells rGocVol oobValue nConnAA nConnPf
      totConn shuffleGolgi shuffleAA shufflePF rolls hperm hle
    have hcond : granules.length ≤ (shuffleGolgi golgicells).length := by
      rw [hperm.length_eq]
      exact hle
    simp only [connectome_grc_goc]
    rw [if_pos hcond]
  · intro fgn granules golgicells rGocVol oobValue nConnAA nConnPf totConn
      shuffleGolgi shuffleAA shufflePF rolls hperm hshufAA hdense hn hoob hlt
    have hcond : ¬(granules.length ≤ (shuffleGolgi golgicells).length) := by
      rw [hperm.length_eq]
      omega
    have hinit : GrcGocNg granules oobValue granules :=
      ⟨rfl, fun i _ => Or.inl rfl⟩
    obtain ⟨s, hloop⟩ := grcGocLoop_ok fgn rGocVol oobValue nConnAA totConn
      shuffleAA shufflePF rolls granules hdense hn hshufAA
      (shuffleGolgi golgicells) (fun g hg => hoob g (hperm.subset hg)) 0
      granules [] [] hinit
    simp only [connectome_grc_goc]
    rw [if_neg hcond]
    simp only [hloop]
    exact ⟨_, rfl⟩

/-- C2, witness: one granule and one golgi (equal sizes) raise the supply
error; two granules with ids 0, 1 and one golgi at the origin with sentinel
100 run to completion without error. -/
theorem C2_amended_witness :
    (connectome_grc_goc 0 [⟨0, 0, 0, 0, 0⟩] [⟨1, 0, 0, 0, 0⟩] 1 1000 1 1 2 id
      (fun _ l => l) (fun _ l => l) (fun _ _ => 0) =
      .error "The number of granule cells was less than the number of golgi cells. Simulation cannot continue.") ∧
    (∃ res, connectome_grc_goc ((0 : ℕ) : ℚ)
      [⟨0, 0, 0, 0, 0⟩, ⟨1, 0, 1, 0, 1⟩] [⟨10, 0, 0, 0, 0⟩] 1 100 1 1 2 id
      (fun _ l => l) (fun _ l => l) (fun _ _ => 0) = .ok res) :=
  ⟨C2_amended.1 0 [⟨0, 0, 0, 0, 0⟩] [⟨1, 0, 0, 0, 0⟩] 1 1000 1 1 2 id
      (fun _ l => l) (fun _ l => l) (fun _ _ => 0) (List.Perm.refl _)
      (by decide),
    C2_amended.2 0 [⟨0, 0, 0, 0, 0⟩, ⟨1, 0, 1, 0, 1⟩] [⟨10, 0, 0, 0, 0⟩] 1 100
      1 1 2 id (fun _ l => l) (fun _ l => l) (fun _ _ => 0) (List.Perm.refl _)
      (fun _ _ => List.Perm.refl _)
      (by
        intro i hi
        match i, hi with
        | 0, _ => norm_num [dflt]
        | 1, _ => norm_num [dflt])
      (by decide)
      (by
        intro g hg
        rw [List.mem_singleton] at hg
        subst hg
        norm_num)
      (by decide)⟩
